import Mathlib

/-!
# Argyll Vehicles storefront: inventory view-model and review moderation

A shallow embedding of the state/derivation layer of `src/App.jsx`:

* the `filtered` memo of `CarSalesApp` (filter pipeline followed by `Array.prototype.sort`),
* the review operations of `ReviewsPage` (`approve`, `unapprove`, `del`, `saveResponse`) and the
  `published` / `pending` views,
* deletion of an inventory record (`onDelete` of `VehicleCard`) and the add-vehicle `onAdd`,
* review submission (`addReview`),
* the persistent store (`loadInventory`, `saveInventory`, `loadReviews`, `saveReviews`) over a
  model of `localStorage` in which a stored text is kept by the value it denotes as JSON.

JavaScript arrays are lists; state updates `setX(prev => f prev)` are the pure function `f`;
an exception raised while evaluating is an `Except.error`.  Numbers are integers.  The `year`,
`price` and `mileage` of a listing are JavaScript values, because the listings that the
add-vehicle form stores hold React elements there.  `createdAt` of a listing is kept as the time
value (milliseconds) that `new Date(createdAt)` denotes.  Two tables of the runtime are
parameters: the case table used by `toLowerCase`, and the properties that `JSON.stringify`
writes for a React element.
-/

namespace CarSales

/-! ## JavaScript values and errors -/

/-- Exceptions that evaluation of the embedded code can raise. -/
inductive JSError where
  | referenceError (name : String)
  | syntaxError
  | domException (name : String)
  deriving DecidableEq, Repr

/-- The JavaScript values that reach a numeric position in the embedded code: a number, `NaN`,
a React element (the object a component function returns; `tag` is its element type), or the
plain object that is read back from the JSON text of such an element (what a stored element is
after a reload). -/
inductive JSValue where
  | number (n : Int)
  | nan
  | element (tag : String)
  | object (tag : String)
  deriving DecidableEq, Repr

/-- `Number` as the name is bound inside the module.  `App.jsx` declares
`function Number({label, value, onChange})` at module level (line 657, one of the "small input
helpers"); the declaration is hoisted and shadows the built-in `Number` in every function of the
module, `filtered`, `addReview` and `AddVehicleForm.save` included.  Called as a plain function
it destructures its argument (every property is `undefined` on a string or a number) and
returns the React element `<label className="text-sm">…</label>`. -/
def Number {α : Type} (_props : α) : JSValue :=
  JSValue.element "label"

/-- The primitive values that the values of `JSValue` convert to. -/
inductive JSPrimitive where
  | number (n : Int)
  | nan
  | objectString
  deriving DecidableEq, Repr

/-- `ToPrimitive`: a number is its own primitive value; an object, React element or plain, has
neither `valueOf` nor `toString` of its own, so its primitive value is the string
`"[object Object]"`. -/
def toPrimitive : JSValue → JSPrimitive
  | JSValue.number n => JSPrimitive.number n
  | JSValue.nan => JSPrimitive.nan
  | JSValue.element _ => JSPrimitive.objectString
  | JSValue.object _ => JSPrimitive.objectString

/-- `ToNumber`: the string `"[object Object]"` is not a numeric literal, hence `NaN` (`none`)
for an object. -/
def toNumber (v : JSValue) : Option Int :=
  match toPrimitive v with
  | JSPrimitive.number n => some n
  | JSPrimitive.nan => none
  | JSPrimitive.objectString => none

/-- The comparison `x <= y`.  When both primitive values are strings they are compared as
strings: two objects both give `"[object Object]"`, and a string is `<=` itself.  Otherwise
both sides are converted to numbers and the comparison is false as soon as one is `NaN`. -/
def jsLessEq (x y : JSValue) : Bool :=
  match toPrimitive x, toPrimitive y with
  | JSPrimitive.objectString, JSPrimitive.objectString => true
  | JSPrimitive.number a, JSPrimitive.number b => decide (a ≤ b)
  | _, _ => false

/-- The comparison `x >= y`, with the same conversions as `x <= y`. -/
def jsGreaterEq (x y : JSValue) : Bool :=
  match toPrimitive x, toPrimitive y with
  | JSPrimitive.objectString, JSPrimitive.objectString => true
  | JSPrimitive.number a, JSPrimitive.number b => decide (b ≤ a)
  | _, _ => false

/-- The difference `x - y`: both sides are converted to numbers, and the result is `NaN` as
soon as one of them is. -/
def jsSub (x y : JSValue) : JSValue :=
  match toNumber x, toNumber y with
  | some a, some b => JSValue.number (a - b)
  | _, _ => JSValue.nan

/-! ## Strings -/

/-- White space and line terminators stripped by `String.prototype.trim`. -/
def isJsWhiteSpace (c : Char) : Bool :=
  let n := c.toNat
  n == 0x09 || n == 0x0A || n == 0x0B || n == 0x0C || n == 0x0D || n == 0x20 || n == 0xA0 ||
  n == 0x1680 || (0x2000 ≤ n && n ≤ 0x200A) || n == 0x2028 || n == 0x2029 || n == 0x202F ||
  n == 0x205F || n == 0x3000 || n == 0xFEFF

/-- `s.trim()`. -/
def trim (s : String) : String :=
  ⟨((s.data.dropWhile isJsWhiteSpace).reverse.dropWhile isJsWhiteSpace).reverse⟩

/-- The case table of the runtime: the lower-case text of a character, given the characters
before it and the characters after it (the mapping of a capital sigma depends on them).  The
table is that of the Unicode version of the engine and is not part of the repository. -/
def LowerTable : Type :=
  List Char → Char → List Char → List Char

/-- The lower-case text of the characters `rest`, which follow the characters `before`. -/
def lowerChars (table : LowerTable) : List Char → List Char → List Char
  | _, [] => []
  | before, c :: rest => table before c rest ++ lowerChars table (before ++ [c]) rest

/-- `s.toLowerCase()`: every character is replaced by its lower-case text in the case table of
the runtime. -/
def toLowerCase (table : LowerTable) (s : String) : String :=
  ⟨lowerChars table [] s.data⟩

/-- The case table on the ASCII characters, `A`–`Z` to `a`–`z`, on which every version of the
Unicode tables agrees.  It leaves the other characters as they are, so it stands for the table
of the runtime on ASCII texts only; the sample texts of this file are ASCII. -/
def asciiLowerTable : LowerTable :=
  fun _ c _ => [c.toLower]

/-- Whether `q` occurs in `s` as a contiguous block, on character lists. -/
def includesChars : List Char → List Char → Bool
  | [], q => q.isEmpty
  | c :: cs, q => q.isPrefixOf (c :: cs) || includesChars cs q

/-- `s.includes(q)`. -/
def includes (s q : String) : Bool :=
  includesChars s.data q.data

/-- Truthiness of a string used as a condition: `if (s)` holds for the non-empty strings. -/
def truthy (s : String) : Bool :=
  !s.data.isEmpty

/-! ## Data model -/

/-- A vehicle listing as held in the inventory collection.  `year`, `price` and `mileage` are
numbers in the data model; the listings stored by the add-vehicle form hold
`Number(v.year||…)`, `Number(v.price||0)` and `Number(v.mileage||0)` there (lines 544–546).
`createdAt` is the time value in milliseconds of `new Date(createdAt)`. -/
structure Vehicle where
  id : String
  title : String
  make : String
  model : String
  year : JSValue
  price : JSValue
  mileage : JSValue
  body : String
  fuel : String
  transmission : String
  location : String
  color : String
  vin : String
  description : String
  images : List String
  createdAt : Int
  deriving DecidableEq, Repr

/-- The `filters` state of `CarSalesApp`; every field is the text of a form control. -/
structure Filters where
  make : String
  body : String
  fuel : String
  transmission : String
  maxPrice : String
  yearMin : String
  yearMax : String
  maxMileage : String
  location : String
  deriving DecidableEq, Repr

/-- The initial value of `filters`, also set by "Clear filters". -/
def Filters.empty : Filters :=
  ⟨"", "", "", "", "", "", "", "", ""⟩

/-- A customer review as stored in the review collection.  `rating` is whatever value was
stored for it: `addReview` stores `Number(form.rating)||5`. -/
structure Review where
  id : String
  name : String
  rating : JSValue
  comment : String
  createdAt : String
  response : String
  approved : Bool
  source : String
  deriving DecidableEq, Repr

/-! ## The sort of the derived list -/

/-- The comparator passed to `list.sort` in `filtered` (lines 90–98).  For `mileage-desc` the
source returns `b.mileage-a-mileage`: the identifier `mileage` is bound nowhere in the module,
so evaluating the expression raises a `ReferenceError`. -/
def sortComparator (sortBy : String) (a b : Vehicle) : Except JSError JSValue :=
  if sortBy = "price-asc" then Except.ok (jsSub a.price b.price)
  else if sortBy = "price-desc" then Except.ok (jsSub b.price a.price)
  else if sortBy = "mileage-asc" then Except.ok (jsSub a.mileage b.mileage)
  else if sortBy = "mileage-desc" then Except.error (JSError.referenceError "mileage")
  else if sortBy = "year-desc" then Except.ok (jsSub b.year a.year)
  else if sortBy = "year-asc" then Except.ok (jsSub a.year b.year)
  else Except.ok (JSValue.number (b.createdAt - a.createdAt))

/-- The number that the sort makes of a comparator result (`SortCompare`): the result converted
to a number, with `NaN` replaced by `0`. -/
def compareValue (v : JSValue) : Int :=
  match toNumber v with
  | some n => n
  | none => 0

/-- Insertion of `x` in front of the first element it does not have to follow; the comparator
is called as `cmp x y`, and an exception it raises ends the sort. -/
def insertBy {α ε : Type} (cmp : α → α → Except ε JSValue) (x : α) :
    List α → Except ε (List α)
  | [] => Except.ok [x]
  | y :: ys =>
    match cmp x y with
    | Except.error e => Except.error e
    | Except.ok c =>
      if compareValue c ≤ 0 then Except.ok (x :: y :: ys)
      else
        match insertBy cmp x ys with
        | Except.error e => Except.error e
        | Except.ok r => Except.ok (y :: r)

/-- `Array.prototype.sort(cmp)`: a stable sort (required since ECMAScript 2019) that stops with
the exception as soon as a comparator call raises one.  The sequence of comparator calls is left
to the implementation by the language; for a consistent comparator every stable sort returns the
same array, computed here by insertion.  (A comparator that returns `NaN` is not consistent, and
the order is then left to the engine: the theorems on the order assume numeric sort fields.)
No call is made on arrays of fewer than two elements. -/
def arraySort {α ε : Type} (cmp : α → α → Except ε JSValue) : List α → Except ε (List α)
  | [] => Except.ok []
  | x :: xs =>
    match arraySort cmp xs with
    | Except.error e => Except.error e
    | Except.ok s => insertBy cmp x s

/-! ## The derived list -/

/-- The text searched by the query (line 80). -/
def searchText (v : Vehicle) : String :=
  v.title ++ " " ++ v.make ++ " " ++ v.model ++ " " ++ v.body ++ " " ++ v.fuel ++ " " ++ v.location

/-- `cond ? list.filter(p) : list`, the shape of every filter step of `filtered`. -/
def filterIf {α : Type} (cond : Bool) (p : α → Bool) (list : List α) : List α :=
  if cond then list.filter p else list

/-- The filter steps of `filtered` (lines 78–89), before the sort. -/
def filterSteps (table : LowerTable) (inventory : List Vehicle) (query : String)
    (filters : Filters) : List Vehicle :=
  let list := inventory
  let q := toLowerCase table (trim query)
  let list := filterIf (truthy q) (fun v => includes (toLowerCase table (searchText v)) q) list
  let list := filterIf (truthy filters.make) (fun v => decide (v.make = filters.make)) list
  let list := filterIf (truthy filters.body) (fun v => decide (v.body = filters.body)) list
  let list := filterIf (truthy filters.fuel) (fun v => decide (v.fuel = filters.fuel)) list
  let list := filterIf (truthy filters.location)
    (fun v => decide (v.location = filters.location)) list
  let list := filterIf (truthy filters.transmission)
    (fun v => decide (v.transmission = filters.transmission)) list
  let list := filterIf (truthy filters.maxPrice)
    (fun v => jsLessEq v.price (Number filters.maxPrice)) list
  let list := filterIf (truthy filters.maxMileage)
    (fun v => jsLessEq v.mileage (Number filters.maxMileage)) list
  let list := filterIf (truthy filters.yearMin)
    (fun v => jsGreaterEq v.year (Number filters.yearMin)) list
  let list := filterIf (truthy filters.yearMax)
    (fun v => jsLessEq v.year (Number filters.yearMax)) list
  list

/-- The `filtered` memo of `CarSalesApp` (lines 77–100). -/
def filtered (table : LowerTable) (inventory : List Vehicle) (query : String)
    (filters : Filters) (sortBy : String) : Except JSError (List Vehicle) :=
  arraySort (sortComparator sortBy) (filterSteps table inventory query filters)

/-! ## Auxiliary definitions for the statements -/

instance instDecidableEqExcept {ε α : Type} [DecidableEq ε] [DecidableEq α] :
    DecidableEq (Except ε α) := fun x y =>
  match x, y with
  | Except.ok a, Except.ok b =>
    if h : a = b then isTrue (by rw [h]) else isFalse (fun h2 => h (Except.ok.inj h2))
  | Except.error a, Except.error b =>
    if h : a = b then isTrue (by rw [h]) else isFalse (fun h2 => h (Except.error.inj h2))
  | Except.ok _, Except.error _ => isFalse (fun h => Except.noConfusion h)
  | Except.error _, Except.ok _ => isFalse (fun h => Except.noConfusion h)

/-- Whether a value is a number. -/
def JSValue.isNumber : JSValue → Bool
  | JSValue.number _ => true
  | _ => false

/-- Whether the year, the price and the mileage of a listing are numbers, as in the data
model. -/
def Vehicle.isNumeric (v : Vehicle) : Bool :=
  v.year.isNumber && v.price.isNumber && v.mileage.isNumber

/-- The order of two values that are both numbers: `x` and `y` are numbers and `x ≤ y`. -/
def numbersLe (x y : JSValue) : Prop :=
  ∃ a b : Int, x = JSValue.number a ∧ y = JSValue.number b ∧ a ≤ b

/-- The integer by which `sortComparator` orders the numeric listings, ascending, for every
sort key whose comparator returns. -/
def sortKey (sortBy : String) (v : Vehicle) : Int :=
  if sortBy = "price-asc" then compareValue v.price
  else if sortBy = "price-desc" then -compareValue v.price
  else if sortBy = "mileage-asc" then compareValue v.mileage
  else if sortBy = "year-desc" then -compareValue v.year
  else if sortBy = "year-asc" then compareValue v.year
  else -v.createdAt

/-- Whether the comparator returns `0` on `(a, b)`: the two listings tie under the sort key. -/
def comparesEqual (sortBy : String) (a b : Vehicle) : Bool :=
  match sortComparator sortBy a b with
  | Except.ok c => decide (c = JSValue.number 0)
  | Except.error _ => false

/-- The conjunction of the active predicates of `filtered` on one listing. -/
def survives (table : LowerTable) (query : String) (filters : Filters) (v : Vehicle) : Bool :=
  (!truthy (toLowerCase table (trim query))
      || includes (toLowerCase table (searchText v)) (toLowerCase table (trim query))) &&
  (!truthy filters.make || decide (v.make = filters.make)) &&
  (!truthy filters.body || decide (v.body = filters.body)) &&
  (!truthy filters.fuel || decide (v.fuel = filters.fuel)) &&
  (!truthy filters.location || decide (v.location = filters.location)) &&
  (!truthy filters.transmission || decide (v.transmission = filters.transmission)) &&
  (!truthy filters.maxPrice || jsLessEq v.price (Number filters.maxPrice)) &&
  (!truthy filters.maxMileage || jsLessEq v.mileage (Number filters.maxMileage)) &&
  (!truthy filters.yearMin || jsGreaterEq v.year (Number filters.yearMin)) &&
  (!truthy filters.yearMax || jsLessEq v.year (Number filters.yearMax))

/-! ## Texts that denote a number -/

/-- `SignedInteger` of the numeric-string grammar: an optional sign and at least one digit. -/
def isSignedInteger (cs : List Char) : Bool :=
  match cs with
  | '+' :: r => !r.isEmpty && r.all Char.isDigit
  | '-' :: r => !r.isEmpty && r.all Char.isDigit
  | r => !r.isEmpty && r.all Char.isDigit

/-- An optional `ExponentPart`: nothing, or `e`/`E` followed by a signed integer. -/
def isExponentPartOpt (cs : List Char) : Bool :=
  match cs with
  | [] => true
  | 'e' :: r => isSignedInteger r
  | 'E' :: r => isSignedInteger r
  | _ => false

/-- `StrUnsignedDecimalLiteral`: `Infinity`, or digits with an optional fraction and exponent,
with at least one digit before or after the point. -/
def isUnsignedDecimal (cs : List Char) : Bool :=
  if cs = "Infinity".data then true
  else
    let intPart := cs.takeWhile Char.isDigit
    match cs.dropWhile Char.isDigit with
    | '.' :: r =>
      (!intPart.isEmpty || !(r.takeWhile Char.isDigit).isEmpty) &&
        isExponentPartOpt (r.dropWhile Char.isDigit)
    | r => !intPart.isEmpty && isExponentPartOpt r

/-- `StrDecimalLiteral`: an unsigned decimal literal with an optional sign. -/
def isStrDecimal (cs : List Char) : Bool :=
  match cs with
  | '+' :: r => isUnsignedDecimal r
  | '-' :: r => isUnsignedDecimal r
  | r => isUnsignedDecimal r

/-- Whether `c` is a digit of the given radix (2, 8 or 16). -/
def isRadixDigit (radix : Nat) (c : Char) : Bool :=
  if radix = 2 then c = '0' || c = '1'
  else if radix = 8 then decide ('0' ≤ c ∧ c ≤ '7')
  else c.isDigit || decide ('a' ≤ c ∧ c ≤ 'f') || decide ('A' ≤ c ∧ c ≤ 'F')

/-- `NonDecimalIntegerLiteral`: `0b`, `0o` or `0x` (either case) and at least one digit. -/
def isNonDecimalInteger (cs : List Char) : Bool :=
  match cs with
  | '0' :: p :: r =>
    !r.isEmpty &&
      (((p = 'b' || p = 'B') && r.all (isRadixDigit 2)) ||
       ((p = 'o' || p = 'O') && r.all (isRadixDigit 8)) ||
       ((p = 'x' || p = 'X') && r.all (isRadixDigit 16)))
  | _ => false

/-- Whether a text parses as a number, in the sense of the built-in string-to-number conversion
of the language (`StringNumericLiteral`): surrounded by optional white space, the text is empty,
a decimal literal or a non-decimal integer literal; every other text converts to `NaN`. -/
def isNumericText (s : String) : Bool :=
  let t := (trim s).data
  t.isEmpty || isStrDecimal t || isNonDecimalInteger t

/-! ## The number controls of the filter panel -/

/-- The unsigned part of a valid floating-point number of HTML: digits, or digits with a
fraction, or a fraction alone, followed by an optional exponent. -/
def isValidFloatUnsigned (cs : List Char) : Bool :=
  let intPart := cs.takeWhile Char.isDigit
  match cs.dropWhile Char.isDigit with
  | '.' :: r => !(r.takeWhile Char.isDigit).isEmpty && isExponentPartOpt (r.dropWhile Char.isDigit)
  | r => !intPart.isEmpty && isExponentPartOpt r

/-- Whether a text is a valid floating-point number of HTML: an optional `-` and the unsigned
part. -/
def isValidFloatingPoint (s : String) : Bool :=
  match s.data with
  | '-' :: r => isValidFloatUnsigned r
  | r => isValidFloatUnsigned r

/-- The `value` of an `<input type="number">` in which `typed` was entered (value sanitization
of HTML): the text when it is a valid floating-point number, the empty text otherwise.  The
numeric bounds of `filters` are written only by `NumberControl` (lines 445–452), whose
`onChange` passes `e.target.value` on. -/
def numberInputValue (typed : String) : String :=
  if isValidFloatingPoint typed then typed else ""

/-! ## Collection updates -/

/-- The `onDelete` handler of the card of listing `v` (line 252), as a state update. -/
def onDelete (v : Vehicle) (prev : List Vehicle) : List Vehicle :=
  prev.filter (fun x => decide (x.id ≠ v.id))

/-- `del(id)` of `ReviewsPage` (line 287), as a state update. -/
def del (isAdmin : Bool) (id : String) (prev : List Review) : List Review :=
  if !isAdmin then prev else prev.filter (fun r => decide (r.id ≠ id))

/-- `saveResponse(id, text)` of `ReviewsPage` (line 288), as a state update. -/
def saveResponse (isAdmin : Bool) (id text : String) (prev : List Review) : List Review :=
  if !isAdmin then prev
  else prev.map (fun r => if r.id = id then { r with response := text } else r)

/-- `approve(id)` of `ReviewsPage` (line 289), as a state update. -/
def approve (isAdmin : Bool) (id : String) (prev : List Review) : List Review :=
  if !isAdmin then prev
  else prev.map (fun r => if r.id = id then { r with approved := true } else r)

/-- `unapprove(id)` of `ReviewsPage` (line 290), as a state update. -/
def unapprove (isAdmin : Bool) (id : String) (prev : List Review) : List Review :=
  if !isAdmin then prev
  else prev.map (fun r => if r.id = id then { r with approved := false } else r)

/-- The `published` view of `ReviewsPage` (line 293). -/
def published (reviews : List Review) : List Review :=
  reviews.filter (fun r => r.approved)

/-- The `pending` view of `ReviewsPage` (line 294). -/
def pending (reviews : List Review) : List Review :=
  reviews.filter (fun r => !r.approved)

/-- A review with the given id and approved flag, the other fields fixed. -/
def sampleReview (id : String) (approved : Bool) : Review :=
  { id := id, name := "Jane", rating := JSValue.number 5, comment := "Great service",
    createdAt := "2024-01-01T00:00:00.000Z", response := "", approved := approved,
    source := "onsite" }

/-! ## Review submission and the add-vehicle flow -/

/-- A value held by `form.rating`: the number `5` of the initial form, or the text of the option
chosen in the rating `<select>`. -/
inductive FormValue where
  | number (n : Int)
  | text (s : String)
  deriving DecidableEq, Repr

/-- The `form` state of `ReviewsPage` (line 276). -/
structure ReviewForm where
  name : String
  rating : FormValue
  comment : String
  deriving DecidableEq, Repr

/-- The form `{name:'',rating:5,comment:''}`, the initial state and the value set after a
submission. -/
def ReviewForm.initial : ReviewForm :=
  ⟨"", FormValue.number 5, ""⟩

/-- Truthiness of a value: a number other than `0`, and every object, is truthy; `NaN` is
falsy. -/
def isTruthy : JSValue → Bool
  | JSValue.number n => decide (n ≠ 0)
  | JSValue.nan => false
  | JSValue.element _ => true
  | JSValue.object _ => true

/-- `a || b`. -/
def jsOr (a b : JSValue) : JSValue :=
  if isTruthy a then a else b

/-- What a call of `addReview` leaves behind: the review collection, the form, and the text of
the alert shown. -/
structure AddReviewResult where
  reviews : List Review
  form : ReviewForm
  alert : String
  deriving DecidableEq, Repr

/-- `addReview(e)` of `ReviewsPage` (lines 279–286).  `uid` is the value returned by `uid()` and
`now` the value of `new Date().toISOString()` at the call. -/
def addReview (uid now : String) (form : ReviewForm) (prev : List Review) : AddReviewResult :=
  if !truthy form.name || !truthy form.comment then
    { reviews := prev, form := form, alert := "Please add your name and a short comment." }
  else
    let r : Review :=
      { id := uid, name := trim form.name,
        rating := jsOr (Number form.rating) (JSValue.number 5),
        comment := trim form.comment, createdAt := now, response := "", approved := false,
        source := "onsite" }
    { reviews := r :: prev, form := ReviewForm.initial,
      alert := "Thanks! Your review was submitted and is awaiting approval." }

/-- The `onAdd` handler of the add-vehicle drawer (lines 259–263), as a state update of the
inventory.  `uid` is the value returned by `uid()` and `now` the creation time. -/
def onAdd (uid : String) (now : Int) (veh : Vehicle) (prev : List Vehicle) : List Vehicle :=
  { veh with id := uid, createdAt := now } :: prev

/-! ## Persistent store -/

/-- The values that JSON texts denote, which are the values `JSON.parse` returns. -/
inductive Json where
  | null
  | bool (b : Bool)
  | num (n : Int)
  | str (s : String)
  | arr (items : List Json)
  | obj (fields : List (String × Json))

/-- A text kept by `localStorage`, by what `JSON.parse` makes of it: the empty text, a text of
the JSON grammar (never empty) with the value it denotes, or a non-empty text outside the
grammar. -/
inductive StoredText where
  | empty
  | json (value : Json)
  | malformed

/-- The state of `localStorage`: whether reading raises, whether writing raises, and the text
kept under each key. -/
structure Storage where
  readFails : Bool
  writeFails : Bool
  items : String → Option StoredText

/-- The key of the inventory collection (line 28). -/
def LS_KEY : String := "car-sales-inventory"

/-- The key of the review collection (line 29). -/
def LS_REVIEWS : String := "car-sales-reviews"

/-- `localStorage.getItem(key)`: `none` is `null`. -/
def getItem (st : Storage) (key : String) : Except JSError (Option StoredText) :=
  if st.readFails then Except.error (JSError.domException "SecurityError")
  else Except.ok (st.items key)

/-- `localStorage.setItem(key, text)`. -/
def setItem (st : Storage) (key : String) (text : StoredText) : Except JSError Storage :=
  if st.writeFails then Except.error (JSError.domException "QuotaExceededError")
  else Except.ok { st with items := fun k => if k = key then some text else st.items k }

/-- `JSON.parse(raw)`: the value of a JSON text, a `SyntaxError` on every other text. -/
def jsonParse : StoredText → Except JSError Json
  | StoredText.json v => Except.ok v
  | StoredText.empty => Except.error JSError.syntaxError
  | StoredText.malformed => Except.error JSError.syntaxError

/-- Truthiness of a stored text: `if(raw)` holds for the non-empty texts. -/
def rawTruthy : StoredText → Bool
  | StoredText.empty => false
  | StoredText.json _ => true
  | StoredText.malformed => true

/-- The properties, other than `type`, that `JSON.stringify` writes for a React element of the
given element type (`key`, `props` with their nested children, and the keys that depend on the
React build).  They are not part of the repository. -/
def ElementJson : Type :=
  String → List (String × Json)

/-- What `JSON.stringify` writes for a value: a number as it is, `NaN` as `null`, a React
element as the plain object of its enumerable properties that have a JSON value (`$$typeof`, a
symbol, and the function-valued props are left out), `type` first; the plain object read back
from such a text is written as the same text. -/
def valueJson (ej : ElementJson) : JSValue → Json
  | JSValue.number n => Json.num n
  | JSValue.nan => Json.null
  | JSValue.element tag => Json.obj (("type", Json.str tag) :: ej tag)
  | JSValue.object tag => Json.obj (("type", Json.str tag) :: ej tag)

/-- The value that `JSON.stringify` writes for a review. -/
def reviewJson (ej : ElementJson) (r : Review) : Json :=
  Json.obj [("id", Json.str r.id), ("name", Json.str r.name),
    ("rating", valueJson ej r.rating),
    ("comment", Json.str r.comment), ("createdAt", Json.str r.createdAt),
    ("response", Json.str r.response), ("approved", Json.bool r.approved),
    ("source", Json.str r.source)]

/-- The value that `JSON.stringify` writes for a listing; `createdAt` is kept as its time value,
as in `Vehicle`. -/
def vehicleJson (ej : ElementJson) (v : Vehicle) : Json :=
  Json.obj [("id", Json.str v.id), ("title", Json.str v.title), ("make", Json.str v.make),
    ("model", Json.str v.model), ("year", valueJson ej v.year),
    ("price", valueJson ej v.price), ("mileage", valueJson ej v.mileage),
    ("body", Json.str v.body), ("fuel", Json.str v.fuel),
    ("transmission", Json.str v.transmission), ("location", Json.str v.location),
    ("color", Json.str v.color), ("vin", Json.str v.vin),
    ("description", Json.str v.description),
    ("images", Json.arr (v.images.map Json.str)), ("createdAt", Json.num v.createdAt)]

/-- `JSON.stringify(v)` for a review collection. -/
def stringifyReviews (ej : ElementJson) (v : List Review) : StoredText :=
  StoredText.json (Json.arr (v.map (reviewJson ej)))

/-- `JSON.stringify(v)` for an inventory. -/
def stringifyInventory (ej : ElementJson) (v : List Vehicle) : StoredText :=
  StoredText.json (Json.arr (v.map (vehicleJson ej)))

/-- The body shared by `loadInventory` and `loadReviews` (lines 56 and 58):
`try{ const raw = localStorage.getItem(key); if(raw) return JSON.parse(raw);}catch{} return [];` -/
def loadKey (key : String) (st : Storage) : Except JSError Json :=
  match getItem st key with
  | Except.error _ => Except.ok (Json.arr [])
  | Except.ok none => Except.ok (Json.arr [])
  | Except.ok (some raw) =>
    if rawTruthy raw then
      match jsonParse raw with
      | Except.error _ => Except.ok (Json.arr [])
      | Except.ok v => Except.ok v
    else Except.ok (Json.arr [])

/-- `loadInventory()` (line 56). -/
def loadInventory (st : Storage) : Except JSError Json :=
  loadKey LS_KEY st

/-- `loadReviews()` (line 58). -/
def loadReviews (st : Storage) : Except JSError Json :=
  loadKey LS_REVIEWS st

/-- `saveInventory(v)` (line 57): the store after the call; an exception of `setItem` is
swallowed and leaves the store as it was. -/
def saveInventory (ej : ElementJson) (st : Storage) (v : List Vehicle) : Storage :=
  match setItem st LS_KEY (stringifyInventory ej v) with
  | Except.error _ => st
  | Except.ok st2 => st2

/-- `saveReviews(v)` (line 59): the store after the call; an exception of `setItem` is
swallowed and leaves the store as it was. -/
def saveReviews (ej : ElementJson) (st : Storage) (v : List Review) : Storage :=
  match setItem st LS_REVIEWS (stringifyReviews ej v) with
  | Except.error _ => st
  | Except.ok st2 => st2

/-! ## Reading a loaded value as a collection -/

/-- The text of a JSON string value. -/
def Json.asString : Json → Option String
  | Json.str s => some s
  | _ => none

/-- The integer of a JSON number value. -/
def Json.asInt : Json → Option Int
  | Json.num n => some n
  | _ => none

/-- The boolean of a JSON boolean value. -/
def Json.asBool : Json → Option Bool
  | Json.bool b => some b
  | _ => none

/-- Reads every item of a list, failing as soon as one item cannot be read. -/
def readAll {α : Type} (f : Json → Option α) : List Json → Option (List α)
  | [] => some []
  | j :: js =>
    match f j, readAll f js with
    | some a, some as => some (a :: as)
    | _, _ => none

/-- The list of strings that a JSON value is, when it is an array of strings. -/
def Json.asStrings : Json → Option (List String)
  | Json.arr items => readAll Json.asString items
  | _ => none

/-- The field `key` of a JSON object. -/
def Json.field (key : String) : Json → Option Json
  | Json.obj fields => fields.lookup key
  | _ => none

/-- The value that a loaded JSON value is in a numeric field: a number, or the plain object of
a stored element, known by its `type`. -/
def asValue : Json → Option JSValue
  | Json.num n => some (JSValue.number n)
  | Json.obj fields => ((fields.lookup "type").bind Json.asString).map JSValue.object
  | _ => none

/-- The review that a loaded value is, when it is an object with the fields of a review. -/
def asReview (j : Json) : Option Review :=
  match (j.field "id").bind Json.asString, (j.field "name").bind Json.asString,
    (j.field "rating").bind asValue, (j.field "comment").bind Json.asString,
    (j.field "createdAt").bind Json.asString, (j.field "response").bind Json.asString,
    (j.field "approved").bind Json.asBool, (j.field "source").bind Json.asString with
  | some id, some name, some rating, some comment, some createdAt, some response, some approved,
    some source =>
    some { id := id, name := name, rating := rating, comment := comment,
           createdAt := createdAt, response := response, approved := approved,
           source := source }
  | _, _, _, _, _, _, _, _ => none

/-- The listing that a loaded value is, when it is an object with the fields of a listing. -/
def asVehicle (j : Json) : Option Vehicle :=
  match (j.field "id").bind Json.asString, (j.field "title").bind Json.asString,
    (j.field "make").bind Json.asString, (j.field "model").bind Json.asString,
    (j.field "year").bind asValue, (j.field "price").bind asValue,
    (j.field "mileage").bind asValue, (j.field "body").bind Json.asString with
  | some id, some title, some make, some model, some year, some price, some mileage,
    some body =>
    match (j.field "fuel").bind Json.asString, (j.field "transmission").bind Json.asString,
      (j.field "location").bind Json.asString, (j.field "color").bind Json.asString,
      (j.field "vin").bind Json.asString, (j.field "description").bind Json.asString,
      (j.field "images").bind Json.asStrings, (j.field "createdAt").bind Json.asInt with
    | some fuel, some transmission, some location, some color, some vin, some description,
      some images, some createdAt =>
      some { id := id, title := title, make := make, model := model, year := year,
             price := price, mileage := mileage, body := body, fuel := fuel,
             transmission := transmission, location := location, color := color, vin := vin,
             description := description, images := images, createdAt := createdAt }
    | _, _, _, _, _, _, _, _ => none
  | _, _, _, _, _, _, _, _ => none

/-- The review collection that a loaded value is, when it is an array of reviews. -/
def asReviews : Json → Option (List Review)
  | Json.arr items => readAll asReview items
  | _ => none

/-- The inventory that a loaded value is, when it is an array of listings. -/
def asInventory : Json → Option (List Vehicle)
  | Json.arr items => readAll asVehicle items
  | _ => none

/-- Whether a value is a sequence of records: an array whose items are all objects. -/
def isRecordSequence : Json → Bool
  | Json.arr items => items.all (fun j => match j with | Json.obj _ => true | _ => false)
  | _ => false

/-- The review form of the example of the specification. -/
def sampleForm : ReviewForm :=
  ⟨"Jane", FormValue.number 5, "Great service"⟩

/-! ## Sample records -/

/-- The case table with which the samples are evaluated. -/
def sampleTable : LowerTable := asciiLowerTable

/-- A listing of the data model with the given id, year, price, mileage and creation time, the
other fields fixed. -/
def sampleListing (id : String) (year price mileage createdAt : Int) : Vehicle :=
  { id := id, title := "", make := "Ford", model := "Focus", year := JSValue.number year,
    price := JSValue.number price, mileage := JSValue.number mileage, body := "Hatchback",
    fuel := "Petrol", transmission := "Manual", location := "Helensburgh", color := "",
    vin := "", description := "", images := [], createdAt := createdAt }

/-- The first listing of the example inventory of the specification. -/
def listingA : Vehicle := sampleListing "a" 2020 10000 30000 1

/-- The second listing of the example inventory of the specification. -/
def listingB : Vehicle := sampleListing "b" 2018 8000 60000 2

/-- A listing as `AddVehicleForm.save` passes it to `onAdd` (lines 542–548) for the make
`Ford`, the model `Focus` and the price `12000` entered in the form: its price, mileage and
year are `Number(v.price||0)`, `Number(v.mileage||0)` and `Number(v.year||…)`. -/
def formListing : Vehicle :=
  { id := "", title := "2024 Ford Focus", make := "Ford", model := "Focus",
    year := Number (2024 : Int), price := Number "12000", mileage := Number (0 : Int),
    body := "", fuel := "", transmission := "", location := "Helensburgh", color := "",
    vin := "", description := "", images := [], createdAt := 0 }

/-- The inventory after the admin has added `formListing` to the empty inventory. -/
def addedInventory : List Vehicle :=
  onAdd "c" 3 formListing []

/-- The review that `addReview` stores for the example form, with the id `u1`. -/
def submittedReview : Review :=
  { id := "u1", name := "Jane", rating := JSValue.element "label", comment := "Great service",
    createdAt := "2024-05-01T10:00:00.000Z", response := "", approved := false,
    source := "onsite" }

/-- The value after a save and a load: a React element comes back as a plain object. -/
def reloadedValue : JSValue → JSValue
  | JSValue.element tag => JSValue.object tag
  | v => v

/-- The review `r` after a save and a load. -/
def reloadedReview (r : Review) : Review :=
  { r with rating := reloadedValue r.rating }

/-- The listing `v` after a save and a load. -/
def reloadedListing (v : Vehicle) : Vehicle :=
  { v with year := reloadedValue v.year, price := reloadedValue v.price,
           mileage := reloadedValue v.mileage }

/-! # Theorems -/

/-! ## Lemmas on strings -/

theorem truthy_iff (s : String) : truthy s = true ↔ s ≠ "" := by
  cases s with
  | mk d =>
    cases d with
    | nil => simp [truthy]
    | cons c cs =>
      simp only [truthy, List.isEmpty_cons, Bool.not_false, ne_eq, true_iff]
      intro h
      have h2 := congrArg String.data h
      simp at h2

theorem truthy_empty : truthy "" = false := rfl

theorem toLowerCase_empty (table : LowerTable) : toLowerCase table "" = "" := rfl

theorem includesChars_iff (s q : List Char) : includesChars s q = true ↔ q <:+: s := by
  induction s with
  | nil => cases q <;> simp [includesChars]
  | cons c cs ih =>
    simp only [includesChars, Bool.or_eq_true, ih, List.isPrefixOf_iff_prefix]
    exact List.infix_cons_iff.symm

theorem includes_iff (s q : String) : includes s q = true ↔ q.data <:+: s.data :=
  includesChars_iff s.data q.data

/-! ## Lemmas on the comparisons -/

theorem toNumber_Number {α : Type} (t : α) : toNumber (Number t) = none := rfl

theorem jsLessEq_number (x n : Int) :
    jsLessEq (JSValue.number x) (JSValue.number n) = true ↔ x ≤ n := by
  simp [jsLessEq, toPrimitive]

theorem jsGreaterEq_number (x n : Int) :
    jsGreaterEq (JSValue.number x) (JSValue.number n) = true ↔ n ≤ x := by
  simp [jsGreaterEq, toPrimitive]

/-- Against the result of the module's `Number`, `<=` holds exactly for the objects. -/
theorem jsLessEq_Number {α : Type} (x : JSValue) (t : α) :
    jsLessEq x (Number t) = (toPrimitive x == JSPrimitive.objectString) := by
  cases x <;> rfl

/-- Against the result of the module's `Number`, `>=` holds exactly for the objects. -/
theorem jsGreaterEq_Number {α : Type} (x : JSValue) (t : α) :
    jsGreaterEq x (Number t) = (toPrimitive x == JSPrimitive.objectString) := by
  cases x <;> rfl

theorem jsLessEq_Number_of_isNumber {α : Type} (x : JSValue) (t : α)
    (h : x.isNumber = true) : jsLessEq x (Number t) = false := by
  cases x <;> first | rfl | cases h

theorem jsGreaterEq_Number_of_isNumber {α : Type} (x : JSValue) (t : α)
    (h : x.isNumber = true) : jsGreaterEq x (Number t) = false := by
  cases x <;> first | rfl | cases h

theorem isNumber_iff (x : JSValue) : x.isNumber = true ↔ ∃ n, x = JSValue.number n := by
  cases x <;> simp [JSValue.isNumber]

/-! ## Lemmas on the filter steps -/

theorem filterIf_eq_filter {α : Type} (c : Bool) (p : α → Bool) (l : List α) :
    filterIf c p l = l.filter (fun v => !c || p v) := by
  cases c <;> simp [filterIf]

theorem filterSteps_eq_filter (table : LowerTable) (inventory : List Vehicle) (query : String)
    (filters : Filters) :
    filterSteps table inventory query filters =
      inventory.filter (survives table query filters) := by
  simp only [filterSteps, filterIf_eq_filter, List.filter_filter]
  congr 1
  funext v
  simp only [survives, Bool.and_assoc, Bool.and_comm, Bool.and_left_comm]

theorem filterSteps_sublist (table : LowerTable) (inventory : List Vehicle) (query : String)
    (filters : Filters) :
    List.Sublist (filterSteps table inventory query filters) inventory := by
  rw [filterSteps_eq_filter]
  exact List.filter_sublist inventory

theorem filterSteps_unfiltered (table : LowerTable) (inventory : List Vehicle) (query : String)
    (hq : trim query = "") : filterSteps table inventory query Filters.empty = inventory := by
  simp only [filterSteps, hq]
  rfl

/-- A numeric bound whose text is not empty lets no listing of the data model through: the
bound is converted by the module's `Number`, whose result compares false with every number. -/
theorem filterSteps_of_bound (table : LowerTable) (inventory : List Vehicle) (query : String)
    (filters : Filters) (hn : ∀ v ∈ inventory, v.isNumeric = true)
    (h : filters.maxPrice ≠ "" ∨ filters.maxMileage ≠ "" ∨ filters.yearMin ≠ "" ∨
      filters.yearMax ≠ "") :
    filterSteps table inventory query filters = [] := by
  rw [filterSteps_eq_filter, List.filter_eq_nil_iff]
  intro v hv
  have hnum := hn v hv
  simp only [Vehicle.isNumeric, Bool.and_eq_true] at hnum
  obtain ⟨⟨hy, hp⟩, hm⟩ := hnum
  simp only [← truthy_iff] at h
  simp only [survives, jsLessEq_Number_of_isNumber _ _ hp, jsLessEq_Number_of_isNumber _ _ hm,
    jsLessEq_Number_of_isNumber _ _ hy, jsGreaterEq_Number_of_isNumber _ _ hy, Bool.or_false]
  rcases h with h | h | h | h <;> simp [h]

/-- A listing whose year, price and mileage are objects passes every numeric bound, whatever
the text of the bound. -/
theorem survives_of_objects (table : LowerTable) (query : String) (filters : Filters)
    (v : Vehicle) (hy : toPrimitive v.year = JSPrimitive.objectString)
    (hp : toPrimitive v.price = JSPrimitive.objectString)
    (hm : toPrimitive v.mileage = JSPrimitive.objectString) :
    survives table query filters v =
      survives table query
        { filters with maxPrice := "", maxMileage := "", yearMin := "", yearMax := "" } v := by
  simp [survives, jsLessEq_Number, jsGreaterEq_Number, hy, hp, hm, truthy_empty]

/-! ## Lemmas on the sort -/

theorem isNumeric_fields (v : Vehicle) (h : v.isNumeric = true) :
    v.year.isNumber = true ∧ v.price.isNumber = true ∧ v.mileage.isNumber = true := by
  simp only [Vehicle.isNumeric, Bool.and_eq_true] at h
  exact ⟨h.1.1, h.1.2, h.2⟩

theorem insertBy_perm {α ε : Type} (cmp : α → α → Except ε JSValue) (x : α) (l s : List α)
    (h : insertBy cmp x l = Except.ok s) : s.Perm (x :: l) := by
  induction l generalizing s with
  | nil =>
    simp only [insertBy] at h
    cases h
    exact List.Perm.refl _
  | cons y ys ih =>
    simp only [insertBy] at h
    cases hc : cmp x y with
    | error e => rw [hc] at h; cases h
    | ok c =>
      rw [hc] at h
      simp only at h
      by_cases hle : compareValue c ≤ 0
      · rw [if_pos hle] at h
        cases h
        exact List.Perm.refl _
      · rw [if_neg hle] at h
        cases hr : insertBy cmp x ys with
        | error e => rw [hr] at h; cases h
        | ok r =>
          rw [hr] at h
          cases h
          exact ((ih r hr).cons y).trans (List.Perm.swap x y ys)

theorem arraySort_perm {α ε : Type} (cmp : α → α → Except ε JSValue) (l s : List α)
    (h : arraySort cmp l = Except.ok s) : s.Perm l := by
  induction l generalizing s with
  | nil =>
    simp only [arraySort] at h
    cases h
    exact List.Perm.refl _
  | cons x xs ih =>
    simp only [arraySort] at h
    cases hs : arraySort cmp xs with
    | error e => rw [hs] at h; cases h
    | ok s2 =>
      rw [hs] at h
      exact (insertBy_perm cmp x s2 s h).trans ((ih s2 hs).cons x)

theorem insertBy_total {α ε : Type} (cmp : α → α → Except ε JSValue)
    (hc : ∀ a b, ∃ c, cmp a b = Except.ok c) (x : α) (l : List α) :
    ∃ s, insertBy cmp x l = Except.ok s := by
  induction l with
  | nil => exact ⟨_, rfl⟩
  | cons y ys ih =>
    obtain ⟨c, hxy⟩ := hc x y
    obtain ⟨r, hr⟩ := ih
    simp only [insertBy, hxy, hr]
    by_cases hle : compareValue c ≤ 0
    · exact ⟨_, if_pos hle⟩
    · exact ⟨_, if_neg hle⟩

theorem arraySort_total {α ε : Type} (cmp : α → α → Except ε JSValue)
    (hc : ∀ a b, ∃ c, cmp a b = Except.ok c) (l : List α) :
    ∃ s, arraySort cmp l = Except.ok s := by
  induction l with
  | nil => exact ⟨_, rfl⟩
  | cons x xs ih =>
    obtain ⟨s, hs⟩ := ih
    simp only [arraySort, hs]
    exact insertBy_total cmp hc x s

theorem insertBy_key {α ε : Type} (cmp : α → α → Except ε JSValue) (key : α → Int) (x : α)
    (l : List α) (h : ∀ y ∈ l, cmp x y = Except.ok (JSValue.number (key x - key y))) :
    insertBy cmp x l = Except.ok (List.orderedInsert (fun a b => key a ≤ key b) x l) := by
  induction l with
  | nil => rfl
  | cons y ys ih =>
    have hy := h y (List.mem_cons_self y ys)
    have hys := ih (fun z hz => h z (List.mem_cons_of_mem y hz))
    simp only [insertBy, hy, hys, List.orderedInsert]
    have hv : compareValue (JSValue.number (key x - key y)) = key x - key y := rfl
    rw [hv]
    by_cases hle : key x ≤ key y
    · rw [if_pos (by omega), if_pos hle]
    · rw [if_neg (by omega), if_neg hle]

theorem arraySort_key {α ε : Type} (cmp : α → α → Except ε JSValue) (key : α → Int)
    (l : List α)
    (h : ∀ a ∈ l, ∀ b ∈ l, cmp a b = Except.ok (JSValue.number (key a - key b))) :
    arraySort cmp l = Except.ok (List.insertionSort (fun a b => key a ≤ key b) l) := by
  induction l with
  | nil => rfl
  | cons x xs ih =>
    have hxs := ih (fun a ha b hb =>
      h a (List.mem_cons_of_mem x ha) b (List.mem_cons_of_mem x hb))
    simp only [arraySort, hxs, List.insertionSort]
    apply insertBy_key
    intro y hy
    have hy2 : y ∈ xs := (List.mem_insertionSort _).1 hy
    exact h x (List.mem_cons_self x xs) y (List.mem_cons_of_mem x hy2)

theorem arraySort_error {α ε : Type} (e : ε) (l : List α) :
    arraySort (fun _ _ => (Except.error e : Except ε JSValue)) l =
      if l.length ≤ 1 then Except.ok l else Except.error e := by
  induction l with
  | nil => rfl
  | cons x xs ih =>
    match xs, ih with
    | [], _ => rfl
    | [_], _ => rfl
    | _ :: _ :: l, ih =>
      simp only [List.length_cons] at ih
      rw [if_neg (by omega)] at ih
      simp only [arraySort] at ih
      simp only [arraySort, ih, List.length_cons]
      rw [if_neg (by omega)]

theorem filter_orderedInsert_key {α : Type} (key : α → Int) (k : Int) (x : α) (l : List α) :
    (List.orderedInsert (fun a b => key a ≤ key b) x l).filter (fun b => decide (key b = k)) =
      if key x = k then x :: l.filter (fun b => decide (key b = k))
      else l.filter (fun b => decide (key b = k)) := by
  induction l with
  | nil => by_cases hx : key x = k <;> simp [hx]
  | cons y ys ih =>
    simp only [List.orderedInsert]
    by_cases hxy : key x ≤ key y
    · rw [if_pos hxy]
      by_cases hx : key x = k <;> simp [List.filter_cons, hx]
    · rw [if_neg hxy, List.filter_cons, ih]
      by_cases hx : key x = k
      · have hy : key y ≠ k := by omega
        simp [List.filter_cons, hx, hy]
      · simp [List.filter_cons, hx]

theorem filter_insertionSort_key {α : Type} (key : α → Int) (k : Int) (l : List α) :
    (List.insertionSort (fun a b => key a ≤ key b) l).filter (fun b => decide (key b = k)) =
      l.filter (fun b => decide (key b = k)) := by
  induction l with
  | nil => rfl
  | cons x xs ih =>
    rw [List.insertionSort, filter_orderedInsert_key, ih, List.filter_cons]
    by_cases hx : key x = k <;> simp [hx]

theorem sorted_insertionSort_key {α : Type} (key : α → Int) (l : List α) :
    (List.insertionSort (fun a b => key a ≤ key b) l).Pairwise (fun a b => key a ≤ key b) := by
  haveI : IsTotal α (fun a b => key a ≤ key b) := ⟨fun a b => le_total (key a) (key b)⟩
  haveI : IsTrans α (fun a b => key a ≤ key b) := ⟨fun _ _ _ h1 h2 => le_trans h1 h2⟩
  exact List.sorted_insertionSort (fun a b => key a ≤ key b) l

theorem jsSub_of_isNumber (x y : JSValue) (hx : x.isNumber = true) (hy : y.isNumber = true) :
    jsSub x y = JSValue.number (compareValue x - compareValue y) := by
  obtain ⟨a, rfl⟩ := (isNumber_iff x).1 hx
  obtain ⟨b, rfl⟩ := (isNumber_iff y).1 hy
  rfl

theorem sortComparator_eq_key (sortBy : String) (h : sortBy ≠ "mileage-desc") (a b : Vehicle)
    (ha : a.isNumeric = true) (hb : b.isNumeric = true) :
    sortComparator sortBy a b =
      Except.ok (JSValue.number (sortKey sortBy a - sortKey sortBy b)) := by
  simp only [Vehicle.isNumeric, Bool.and_eq_true] at ha hb
  obtain ⟨⟨hay, hap⟩, ham⟩ := ha
  obtain ⟨⟨hby, hbp⟩, hbm⟩ := hb
  unfold sortComparator sortKey
  split_ifs
  · rw [jsSub_of_isNumber _ _ hap hbp]
  · rw [jsSub_of_isNumber _ _ hbp hap]
    congr 2
    ring
  · rw [jsSub_of_isNumber _ _ ham hbm]
  · rw [jsSub_of_isNumber _ _ hby hay]
    congr 2
    ring
  · rw [jsSub_of_isNumber _ _ hay hby]
  · congr 2
    ring

theorem sortComparator_total (sortBy : String) (h : sortBy ≠ "mileage-desc") (a b : Vehicle) :
    ∃ c, sortComparator sortBy a b = Except.ok c := by
  unfold sortComparator
  split_ifs <;> exact ⟨_, rfl⟩

theorem filtered_total (table : LowerTable) (inventory : List Vehicle) (query : String)
    (filters : Filters) (sortBy : String) (h : sortBy ≠ "mileage-desc") :
    ∃ l, filtered table inventory query filters sortBy = Except.ok l :=
  arraySort_total _ (sortComparator_total sortBy h) _

theorem isNumeric_of_mem_filterSteps (table : LowerTable) (inventory : List Vehicle)
    (query : String) (filters : Filters) (hn : ∀ v ∈ inventory, v.isNumeric = true) :
    ∀ v ∈ filterSteps table inventory query filters, v.isNumeric = true :=
  fun v hv => hn v ((filterSteps_sublist table inventory query filters).subset hv)

theorem filtered_eq_insertionSort (table : LowerTable) (inventory : List Vehicle)
    (query : String) (filters : Filters) (sortBy : String) (h : sortBy ≠ "mileage-desc")
    (hn : ∀ v ∈ inventory, v.isNumeric = true) :
    filtered table inventory query filters sortBy =
      Except.ok (List.insertionSort (fun a b => sortKey sortBy a ≤ sortKey sortBy b)
        (filterSteps table inventory query filters)) := by
  have hm := isNumeric_of_mem_filterSteps table inventory query filters hn
  exact arraySort_key _ (sortKey sortBy) _
    (fun a ha b hb => sortComparator_eq_key sortBy h a b (hm a ha) (hm b hb))

theorem filtered_mileage_desc (table : LowerTable) (inventory : List Vehicle) (query : String)
    (filters : Filters) :
    filtered table inventory query filters "mileage-desc" =
      if (filterSteps table inventory query filters).length ≤ 1
      then Except.ok (filterSteps table inventory query filters)
      else Except.error (JSError.referenceError "mileage") := by
  have hc : sortComparator "mileage-desc" =
      fun _ _ => (Except.error (JSError.referenceError "mileage") : Except JSError JSValue) := by
    funext a b
    rfl
  rw [filtered, hc, arraySort_error]

theorem comparesEqual_eq_key (sortBy : String) (h : sortBy ≠ "mileage-desc") (a b : Vehicle)
    (ha : a.isNumeric = true) (hb : b.isNumeric = true) :
    comparesEqual sortBy a b = decide (sortKey sortBy b = sortKey sortBy a) := by
  simp only [comparesEqual, sortComparator_eq_key sortBy h a b ha hb, JSValue.number.injEq,
    sub_eq_zero]
  by_cases hk : sortKey sortBy a = sortKey sortBy b
  · simp [hk]
  · have hk2 : ¬ sortKey sortBy b = sortKey sortBy a := fun h2 => hk h2.symm
    simp [hk, hk2]

theorem comparesEqual_mileage_desc (a b : Vehicle) : comparesEqual "mileage-desc" a b = false :=
  rfl

/-- If `filtered` returns, its result is a permutation of the listings left by the filter
steps. -/
theorem filtered_perm (table : LowerTable) (inventory : List Vehicle) (query : String)
    (filters : Filters) (sortBy : String) (l : List Vehicle)
    (h : filtered table inventory query filters sortBy = Except.ok l) :
    l.Perm (filterSteps table inventory query filters) :=
  arraySort_perm _ _ _ h

theorem jsSub_eq_zero_iff (x y : JSValue) (hy : y.isNumber = true) :
    (jsSub x y = JSValue.number 0) ↔ x = y := by
  obtain ⟨b, rfl⟩ := (isNumber_iff y).1 hy
  cases x with
  | number a =>
    simp only [jsSub, toNumber, toPrimitive, JSValue.number.injEq]
    omega
  | nan => simp [jsSub, toNumber, toPrimitive]
  | element tag => simp [jsSub, toNumber, toPrimitive]
  | object tag => simp [jsSub, toNumber, toPrimitive]

theorem jsSub_eq_zero_iff' (x y : JSValue) (hy : y.isNumber = true) :
    (jsSub y x = JSValue.number 0) ↔ x = y := by
  obtain ⟨b, rfl⟩ := (isNumber_iff y).1 hy
  cases x with
  | number a =>
    simp only [jsSub, toNumber, toPrimitive, JSValue.number.injEq]
    omega
  | nan => simp [jsSub, toNumber, toPrimitive]
  | element tag => simp [jsSub, toNumber, toPrimitive]
  | object tag => simp [jsSub, toNumber, toPrimitive]

/-- Against a numeric listing `b`, a record `a` ties under the sort key exactly when the field
that the key reads has the same value in both. -/
theorem comparesEqual_iff (sortBy : String) (a b : Vehicle) (hb : b.isNumeric = true) :
    comparesEqual sortBy a b = true ↔
      sortBy ≠ "mileage-desc" ∧
      (if sortBy = "price-asc" ∨ sortBy = "price-desc" then a.price = b.price
       else if sortBy = "mileage-asc" then a.mileage = b.mileage
       else if sortBy = "year-desc" ∨ sortBy = "year-asc" then a.year = b.year
       else a.createdAt = b.createdAt) := by
  obtain ⟨hy, hp, hm⟩ := isNumeric_fields b hb
  unfold comparesEqual sortComparator
  by_cases h1 : sortBy = "price-asc"
  · subst h1
    simp [jsSub_eq_zero_iff _ _ hp]
  by_cases h2 : sortBy = "price-desc"
  · subst h2
    simp only [if_neg h1, if_true, decide_eq_true_eq]
    have h := jsSub_eq_zero_iff' a.price b.price hp
    simpa using h
  by_cases h3 : sortBy = "mileage-asc"
  · subst h3
    simp [jsSub_eq_zero_iff _ _ hm]
  by_cases h4 : sortBy = "mileage-desc"
  · subst h4
    simp
  by_cases h5 : sortBy = "year-desc"
  · subst h5
    simp only [if_neg h1, if_neg h2, if_neg h3, if_neg h4, if_true, decide_eq_true_eq]
    have h := jsSub_eq_zero_iff' a.year b.year hy
    simpa using h
  by_cases h6 : sortBy = "year-asc"
  · subst h6
    simp [jsSub_eq_zero_iff _ _ hy]
  have hor1 : ¬ (sortBy = "price-asc" ∨ sortBy = "price-desc") := fun h => h.elim h1 h2
  have hor2 : ¬ (sortBy = "year-desc" ∨ sortBy = "year-asc") := fun h => h.elim h5 h6
  rw [if_neg h1, if_neg h2, if_neg h3, if_neg h4, if_neg h5, if_neg h6, if_neg hor1,
    if_neg h3, if_neg hor2]
  simp only [decide_eq_true_eq, JSValue.number.injEq, ne_eq, h4, not_false_eq_true, true_and]
  constructor
  · intro h
    omega
  · intro h
    omega

theorem sortKey_eq_of_comparesEqual (sortBy : String) (a x y : Vehicle)
    (hx : x.isNumeric = true) (hy : y.isNumeric = true)
    (hpx : comparesEqual sortBy a x = true) (hpy : comparesEqual sortBy a y = true) :
    sortKey sortBy x = sortKey sortBy y := by
  obtain ⟨_, h1⟩ := (comparesEqual_iff sortBy a x hx).1 hpx
  obtain ⟨_, h2⟩ := (comparesEqual_iff sortBy a y hy).1 hpy
  unfold sortKey
  split_ifs at h1 h2 ⊢ <;> simp_all

theorem filter_orderedInsert_of_class {α : Type} (key : α → Int) (p : α → Bool) (x : α)
    (l : List α) (h : ∀ y ∈ l, p x = true → p y = true → key x = key y) :
    (List.orderedInsert (fun a b => key a ≤ key b) x l).filter p =
      if p x = true then x :: l.filter p else l.filter p := by
  induction l with
  | nil => by_cases hx : p x = true <;> simp [hx]
  | cons y ys ih =>
    have ih2 := ih (fun z hz => h z (List.mem_cons_of_mem y hz))
    simp only [List.orderedInsert]
    by_cases hxy : key x ≤ key y
    · rw [if_pos hxy]
      by_cases hx : p x = true <;> simp [List.filter_cons, hx]
    · rw [if_neg hxy, List.filter_cons, ih2]
      by_cases hx : p x = true
      · have hy : ¬ p y = true := by
          intro hpy
          have := h y (List.mem_cons_self y ys) hx hpy
          omega
        simp [List.filter_cons, hx, hy]
      · simp [List.filter_cons, hx]

theorem filter_insertionSort_of_class {α : Type} (key : α → Int) (p : α → Bool) (l : List α)
    (h : ∀ x ∈ l, ∀ y ∈ l, p x = true → p y = true → key x = key y) :
    (List.insertionSort (fun a b => key a ≤ key b) l).filter p = l.filter p := by
  induction l with
  | nil => rfl
  | cons x xs ih =>
    have ih2 := ih (fun a ha b hb =>
      h a (List.mem_cons_of_mem x ha) b (List.mem_cons_of_mem x hb))
    rw [List.insertionSort, filter_orderedInsert_of_class, ih2, List.filter_cons]
    · intro y hy
      have hy2 : y ∈ xs := (List.mem_insertionSort _).1 hy
      exact h x (List.mem_cons_self x xs) y (List.mem_cons_of_mem x hy2)

/-! ## The derived list -/

theorem eq_number_compareValue (x : JSValue) (h : x.isNumber = true) :
    x = JSValue.number (compareValue x) := by
  obtain ⟨a, rfl⟩ := (isNumber_iff x).1 h
  rfl

theorem numbersLe_of_compareValue (x y : JSValue) (hx : x.isNumber = true)
    (hy : y.isNumber = true) (h : compareValue x ≤ compareValue y) : numbersLe x y :=
  ⟨_, _, eq_number_compareValue x hx, eq_number_compareValue y hy, h⟩

/-- Every record of the derived list is a record of the inventory that passes every active
step of the code: the query, the categorical filters, and the comparisons of the bounds as the
code evaluates them, against the result of the module's `Number`. -/
theorem filtered_members (table : LowerTable) (inventory : List Vehicle) (query : String)
    (filters : Filters) (sortBy : String) (l : List Vehicle)
    (hl : filtered table inventory query filters sortBy = Except.ok l) (v : Vehicle)
    (hv : v ∈ l) :
    v ∈ inventory ∧
    (toLowerCase table (trim query) ≠ "" →
      (toLowerCase table (trim query)).data <:+: (toLowerCase table (searchText v)).data) ∧
    (filters.make ≠ "" → v.make = filters.make) ∧
    (filters.body ≠ "" → v.body = filters.body) ∧
    (filters.fuel ≠ "" → v.fuel = filters.fuel) ∧
    (filters.location ≠ "" → v.location = filters.location) ∧
    (filters.transmission ≠ "" → v.transmission = filters.transmission) ∧
    (filters.maxPrice ≠ "" → jsLessEq v.price (Number filters.maxPrice) = true) ∧
    (filters.maxMileage ≠ "" → jsLessEq v.mileage (Number filters.maxMileage) = true) ∧
    (filters.yearMin ≠ "" → jsGreaterEq v.year (Number filters.yearMin) = true) ∧
    (filters.yearMax ≠ "" → jsLessEq v.year (Number filters.yearMax) = true) := by
  have hmem : v ∈ filterSteps table inventory query filters :=
    (filtered_perm _ _ _ _ _ _ hl).mem_iff.1 hv
  rw [filterSteps_eq_filter, List.mem_filter] at hmem
  obtain ⟨hin, hsv⟩ := hmem
  simp only [survives, Bool.and_eq_true, Bool.or_eq_true, Bool.not_eq_true', decide_eq_true_eq,
    includes_iff] at hsv
  obtain ⟨⟨⟨⟨⟨⟨⟨⟨⟨h1, h2⟩, h3⟩, h4⟩, h5⟩, h6⟩, h7⟩, h8⟩, h9⟩, h10⟩ := hsv
  have key : ∀ (s : String) (P : Prop), (truthy s = false ∨ P) → s ≠ "" → P := by
    intro s P h hne
    rcases h with h | h
    · rw [← truthy_iff] at hne
      rw [h] at hne
      cases hne
    · exact h
  exact ⟨hin, key _ _ h1, key _ _ h2, key _ _ h3, key _ _ h4, key _ _ h5, key _ _ h6,
    key _ _ h7, key _ _ h8, key _ _ h9, key _ _ h10⟩

/-- C1. The inventory that holds the listing added through the add-vehicle form, with
`maxPrice = 9000`: the listing is in the derived list although its price is no number, so it
does not satisfy `price <= maxPrice`; and on the example inventory of the specification the
same bound leaves no listing, the one priced 8000 included. -/
theorem filtered_bound_admits_object (table : LowerTable) :
    filtered table addedInventory "" { Filters.empty with maxPrice := "9000" } "newest" =
      Except.ok addedInventory ∧
    (∀ v ∈ addedInventory, toNumber v.price = none ∧ ¬ ∃ n : Int, v.price = JSValue.number n) ∧
    filtered table [listingA, listingB] "" { Filters.empty with maxPrice := "9000" }
      "price-desc" = Except.ok [] := by
  refine ⟨rfl, ?_, rfl⟩
  intro v hv
  have h : v = { formListing with id := "c", createdAt := 3 } := by
    simpa [addedInventory, onAdd] using hv
  subst h
  exact ⟨rfl, fun ⟨n, hn⟩ => by cases hn⟩

theorem filtered_keySorted (table : LowerTable) (inventory : List Vehicle) (query : String)
    (filters : Filters) (sortBy : String) (h : sortBy ≠ "mileage-desc")
    (hn : ∀ v ∈ inventory, v.isNumeric = true) :
    ∃ l, filtered table inventory query filters sortBy = Except.ok l ∧
      (∀ v ∈ l, v.isNumeric = true) ∧
      l.Pairwise (fun a b => sortKey sortBy a ≤ sortKey sortBy b) := by
  refine ⟨_, filtered_eq_insertionSort _ _ _ _ _ h hn, ?_, sorted_insertionSort_key _ _⟩
  intro v hv
  exact isNumeric_of_mem_filterSteps table inventory query filters hn v
    ((List.mem_insertionSort _).1 hv)

/-- C2. For an inventory whose years, prices and mileages are numbers, the derived list is
ordered by the chosen sort key: price non-decreasing for `price-asc` and non-increasing for
`price-desc`, mileage non-decreasing for `mileage-asc`, year non-decreasing for `year-asc` and
non-increasing for `year-desc`, and `createdAt` non-increasing for `newest` and for every key
that is none of the seven listed ones. -/
theorem filtered_sorted (table : LowerTable) (inventory : List Vehicle) (query : String)
    (filters : Filters) (hn : ∀ v ∈ inventory, v.isNumeric = true) :
    (∃ l, filtered table inventory query filters "price-asc" = Except.ok l ∧
      l.Pairwise (fun a b => numbersLe a.price b.price)) ∧
    (∃ l, filtered table inventory query filters "price-desc" = Except.ok l ∧
      l.Pairwise (fun a b => numbersLe b.price a.price)) ∧
    (∃ l, filtered table inventory query filters "mileage-asc" = Except.ok l ∧
      l.Pairwise (fun a b => numbersLe a.mileage b.mileage)) ∧
    (∃ l, filtered table inventory query filters "year-asc" = Except.ok l ∧
      l.Pairwise (fun a b => numbersLe a.year b.year)) ∧
    (∃ l, filtered table inventory query filters "year-desc" = Except.ok l ∧
      l.Pairwise (fun a b => numbersLe b.year a.year)) ∧
    (∀ sortBy : String,
      sortBy ∉ ["price-asc", "price-desc", "mileage-asc", "mileage-desc", "year-desc",
        "year-asc"] →
      ∃ l, filtered table inventory query filters sortBy = Except.ok l ∧
        l.Pairwise (fun a b => b.createdAt ≤ a.createdAt)) := by
  refine ⟨?_, ?_, ?_, ?_, ?_, ?_⟩
  · obtain ⟨l, h1, hm, h2⟩ :=
      filtered_keySorted table inventory query filters "price-asc" (by decide) hn
    exact ⟨l, h1, h2.imp_of_mem (fun {a b} ha hb hab =>
      numbersLe_of_compareValue _ _ (isNumeric_fields a (hm a ha)).2.1
        (isNumeric_fields b (hm b hb)).2.1 hab)⟩
  · obtain ⟨l, h1, hm, h2⟩ :=
      filtered_keySorted table inventory query filters "price-desc" (by decide) hn
    exact ⟨l, h1, h2.imp_of_mem (fun {a b} ha hb hab =>
      numbersLe_of_compareValue _ _ (isNumeric_fields b (hm b hb)).2.1
        (isNumeric_fields a (hm a ha)).2.1 (neg_le_neg_iff.1 hab))⟩
  · obtain ⟨l, h1, hm, h2⟩ :=
      filtered_keySorted table inventory query filters "mileage-asc" (by decide) hn
    exact ⟨l, h1, h2.imp_of_mem (fun {a b} ha hb hab =>
      numbersLe_of_compareValue _ _ (isNumeric_fields a (hm a ha)).2.2
        (isNumeric_fields b (hm b hb)).2.2 hab)⟩
  · obtain ⟨l, h1, hm, h2⟩ :=
      filtered_keySorted table inventory query filters "year-asc" (by decide) hn
    exact ⟨l, h1, h2.imp_of_mem (fun {a b} ha hb hab =>
      numbersLe_of_compareValue _ _ (isNumeric_fields a (hm a ha)).1
        (isNumeric_fields b (hm b hb)).1 hab)⟩
  · obtain ⟨l, h1, hm, h2⟩ :=
      filtered_keySorted table inventory query filters "year-desc" (by decide) hn
    exact ⟨l, h1, h2.imp_of_mem (fun {a b} ha hb hab =>
      numbersLe_of_compareValue _ _ (isNumeric_fields b (hm b hb)).1
        (isNumeric_fields a (hm a ha)).1 (neg_le_neg_iff.1 hab))⟩
  · intro sortBy hs
    simp only [List.mem_cons, List.mem_singleton, List.not_mem_nil, or_false, not_or] at hs
    obtain ⟨h1, h2, h3, h4, h5, h6⟩ := hs
    obtain ⟨l, hl, _, hp⟩ := filtered_keySorted table inventory query filters sortBy h4 hn
    refine ⟨l, hl, hp.imp (fun {a b} hab => ?_)⟩
    simp only [sortKey, if_neg h1, if_neg h2, if_neg h3, if_neg h5, if_neg h6] at hab
    exact neg_le_neg_iff.1 hab

/-- C2, at the example inventory of the specification under the key `price-desc`, which gives
the order of the example, and under the default key `newest`. -/
theorem filtered_sorted_witness :
    (∃ l, filtered sampleTable [listingA, listingB] "" Filters.empty "price-desc" =
        Except.ok l ∧ l.Pairwise (fun a b => numbersLe b.price a.price)) ∧
    (∃ l, filtered sampleTable [listingA, listingB] "" Filters.empty "newest" = Except.ok l ∧
      l.Pairwise (fun a b => b.createdAt ≤ a.createdAt)) :=
  ⟨(filtered_sorted sampleTable [listingA, listingB] "" Filters.empty (by decide)).2.1,
    (filtered_sorted sampleTable [listingA, listingB] "" Filters.empty
      (by decide)).2.2.2.2.2 "newest" (by decide)⟩

/-- C3. With the key `mileage-desc` no derived list is produced from an inventory of two or more
records (nothing filtered out): the first comparator call raises `ReferenceError` on the
unbound identifier `mileage`. -/
theorem filtered_mileage_desc_raises (table : LowerTable) (a b : Vehicle)
    (rest : List Vehicle) :
    filtered table (a :: b :: rest) "" Filters.empty "mileage-desc" =
      Except.error (JSError.referenceError "mileage") := by
  rw [filtered_mileage_desc]
  have h : filterSteps table (a :: b :: rest) "" Filters.empty = a :: b :: rest := rfl
  rw [h, if_neg (by simp)]

/-- C4. The sort is stable: for an inventory whose years, prices and mileages are numbers and
for every record `a`, the records that tie with `a` under the sort key appear in the derived
list in exactly the order in which they are left by the filter steps, which is their order in
the inventory.  The derived list exists for every sort key other than `mileage-desc`. -/
theorem filtered_stable (table : LowerTable) (inventory : List Vehicle) (query : String)
    (filters : Filters) (sortBy : String) (hn : ∀ v ∈ inventory, v.isNumeric = true) :
    (sortBy ≠ "mileage-desc" →
      ∃ l, filtered table inventory query filters sortBy = Except.ok l) ∧
    ∀ l, filtered table inventory query filters sortBy = Except.ok l →
      ∀ a : Vehicle,
      l.filter (comparesEqual sortBy a) =
        (filterSteps table inventory query filters).filter (comparesEqual sortBy a) ∧
      List.Sublist (l.filter (comparesEqual sortBy a)) inventory := by
  refine ⟨fun hs => filtered_total _ _ _ _ _ hs, ?_⟩
  intro l hl a
  have hm := isNumeric_of_mem_filterSteps table inventory query filters hn
  have heq : l.filter (comparesEqual sortBy a) =
      (filterSteps table inventory query filters).filter (comparesEqual sortBy a) := by
    by_cases hs : sortBy = "mileage-desc"
    · subst hs
      have hc : comparesEqual "mileage-desc" a = fun _ => false := by
        funext b
        rfl
      rw [hc]
      simp
    · rw [filtered_eq_insertionSort _ _ _ _ _ hs hn] at hl
      cases hl
      exact filter_insertionSort_of_class (sortKey sortBy) (comparesEqual sortBy a) _
        (fun x hx y hy hpx hpy =>
          sortKey_eq_of_comparesEqual sortBy a x y (hm x hx) (hm y hy) hpx hpy)
  refine ⟨heq, ?_⟩
  rw [heq]
  exact (List.filter_sublist _).trans (filterSteps_sublist table inventory query filters)

/-- C4, at an inventory of three listings of which the first and the last tie on price. -/
theorem filtered_stable_witness :
    filtered sampleTable [listingA, listingB, sampleListing "c" 2015 10000 90000 3] ""
        Filters.empty "price-asc" =
      Except.ok [listingB, listingA, sampleListing "c" 2015 10000 90000 3] ∧
    [listingB, listingA, sampleListing "c" 2015 10000 90000 3].filter
        (comparesEqual "price-asc" listingA) =
      (filterSteps sampleTable [listingA, listingB, sampleListing "c" 2015 10000 90000 3] ""
        Filters.empty).filter (comparesEqual "price-asc" listingA) :=
  ⟨rfl, ((filtered_stable sampleTable [listingA, listingB, sampleListing "c" 2015 10000 90000 3]
    "" Filters.empty "price-asc" (by decide)).2 _ rfl listingA).1⟩

/-- With no query and no filter, every sort key other than `mileage-desc` yields a permutation
of the inventory. -/
theorem filtered_unfiltered_perm (table : LowerTable) (inventory : List Vehicle)
    (query : String) (sortBy : String) (hq : trim query = "")
    (hs : sortBy ≠ "mileage-desc") :
    ∃ l, filtered table inventory query Filters.empty sortBy = Except.ok l ∧
      l.Perm inventory := by
  obtain ⟨l, hl⟩ := filtered_total table inventory query Filters.empty sortBy hs
  refine ⟨l, hl, ?_⟩
  have hp := filtered_perm _ _ _ _ _ _ hl
  rw [filterSteps_unfiltered table inventory query hq] at hp
  exact hp

/-- C6. With the empty query, no filter and the key `mileage-desc`, the example inventory of the
specification yields no derived list at all, hence no permutation of the inventory. -/
theorem filtered_unfiltered_mileage_desc (table : LowerTable) :
    trim "" = "" ∧
    filtered table [listingA, listingB] "" Filters.empty "mileage-desc" =
      Except.error (JSError.referenceError "mileage") ∧
    ¬ ∃ l, filtered table [listingA, listingB] "" Filters.empty "mileage-desc" = Except.ok l ∧
      l.Perm [listingA, listingB] := by
  refine ⟨rfl, rfl, ?_⟩
  rintro ⟨l, hl, _⟩
  have h : filtered table [listingA, listingB] "" Filters.empty "mileage-desc" =
      Except.error (JSError.referenceError "mileage") := rfl
  rw [h] at hl
  cases hl

/-! ## The number controls -/

theorem not_ws_of_isDigit (c : Char) (h : c.isDigit = true) : isJsWhiteSpace c = false := by
  simp only [Char.isDigit, Bool.and_eq_true, decide_eq_true_eq] at h
  obtain ⟨h1, h2⟩ := h
  have h3 : 48 ≤ c.toNat := h1
  have h4 : c.toNat ≤ 57 := h2
  simp only [isJsWhiteSpace, Bool.or_eq_false_iff, Bool.and_eq_false_iff, beq_eq_false_iff_ne,
    ne_eq, decide_eq_false_iff_not]
  omega

theorem not_ws_of_all_isDigit (r : List Char) (h : r.all Char.isDigit = true) :
    ∀ c ∈ r, isJsWhiteSpace c = false :=
  fun c hc => not_ws_of_isDigit c (List.all_eq_true.1 h c hc)

theorem not_ws_of_isSignedInteger (cs : List Char) (h : isSignedInteger cs = true) :
    ∀ c ∈ cs, isJsWhiteSpace c = false := by
  unfold isSignedInteger at h
  split at h
  · simp only [Bool.and_eq_true] at h
    intro c hc
    rcases List.mem_cons.1 hc with rfl | hc
    · decide
    · exact not_ws_of_all_isDigit _ h.2 c hc
  · simp only [Bool.and_eq_true] at h
    intro c hc
    rcases List.mem_cons.1 hc with rfl | hc
    · decide
    · exact not_ws_of_all_isDigit _ h.2 c hc
  · simp only [Bool.and_eq_true] at h
    exact not_ws_of_all_isDigit _ h.2

theorem not_ws_of_isExponentPartOpt (cs : List Char) (h : isExponentPartOpt cs = true) :
    ∀ c ∈ cs, isJsWhiteSpace c = false := by
  unfold isExponentPartOpt at h
  split at h
  · intro c hc
    cases hc
  · intro c hc
    rcases List.mem_cons.1 hc with rfl | hc
    · decide
    · exact not_ws_of_isSignedInteger _ h c hc
  · intro c hc
    rcases List.mem_cons.1 hc with rfl | hc
    · decide
    · exact not_ws_of_isSignedInteger _ h c hc
  · cases h

theorem not_ws_of_takeWhile_isDigit (cs : List Char) :
    ∀ c ∈ cs.takeWhile Char.isDigit, isJsWhiteSpace c = false :=
  fun c hc => not_ws_of_isDigit c (List.mem_takeWhile_imp hc)

theorem not_ws_of_isValidFloatUnsigned (cs : List Char) (h : isValidFloatUnsigned cs = true) :
    ∀ c ∈ cs, isJsWhiteSpace c = false := by
  intro c hc
  rw [← List.takeWhile_append_dropWhile Char.isDigit cs, List.mem_append] at hc
  rcases hc with hc | hc
  · exact not_ws_of_takeWhile_isDigit cs c hc
  · unfold isValidFloatUnsigned at h
    simp only at h
    split at h
    · rename_i r heq
      rw [heq] at hc
      simp only [Bool.and_eq_true] at h
      rcases List.mem_cons.1 hc with rfl | hc
      · decide
      · rw [← List.takeWhile_append_dropWhile Char.isDigit r, List.mem_append] at hc
        rcases hc with hc | hc
        · exact not_ws_of_takeWhile_isDigit r c hc
        · exact not_ws_of_isExponentPartOpt _ h.2 c hc
    · simp only [Bool.and_eq_true] at h
      exact not_ws_of_isExponentPartOpt _ h.2 c hc

theorem isUnsignedDecimal_of_isValidFloatUnsigned (cs : List Char)
    (h : isValidFloatUnsigned cs = true) : isUnsignedDecimal cs = true := by
  unfold isUnsignedDecimal
  split_ifs with hinf
  · rfl
  · unfold isValidFloatUnsigned at h
    simp only at h ⊢
    split at h
    · simp only [Bool.and_eq_true] at h ⊢
      exact ⟨by simp [h.1], h.2⟩
    · exact h

theorem dropWhile_eq_self_of_all {α : Type} (p : α → Bool) (l : List α)
    (h : ∀ x ∈ l, p x = false) : l.dropWhile p = l := by
  cases l with
  | nil => rfl
  | cons x xs => simp [List.dropWhile, h x (List.mem_cons_self x xs)]

theorem trim_eq_self (s : String) (h : ∀ c ∈ s.data, isJsWhiteSpace c = false) :
    trim s = s := by
  cases s with
  | mk d =>
    simp only [trim]
    rw [dropWhile_eq_self_of_all _ d h,
      dropWhile_eq_self_of_all _ d.reverse (fun c hc => h c (List.mem_reverse.1 hc)),
      List.reverse_reverse]

theorem isNumericText_of_isValidFloatingPoint (s : String)
    (h : isValidFloatingPoint s = true) : isNumericText s = true := by
  unfold isValidFloatingPoint at h
  have key : (∀ c ∈ s.data, isJsWhiteSpace c = false) ∧ isStrDecimal s.data = true := by
    split at h
    · rename_i r heq
      constructor
      · intro c hc
        rw [heq] at hc
        rcases List.mem_cons.1 hc with rfl | hc
        · decide
        · exact not_ws_of_isValidFloatUnsigned r h c hc
      · rw [heq]
        exact isUnsignedDecimal_of_isValidFloatUnsigned r h
    · rename_i r hne
      refine ⟨not_ws_of_isValidFloatUnsigned _ h, ?_⟩
      unfold isStrDecimal
      split
      · next r2 heq =>
        exfalso
        rw [heq] at h
        revert h
        simp [isValidFloatUnsigned, List.takeWhile, List.dropWhile, isExponentPartOpt]
      · next r2 heq => exact absurd heq (hne r2)
      · exact isUnsignedDecimal_of_isValidFloatUnsigned _ h
  simp only [isNumericText, trim_eq_self s key.1, key.2, Bool.true_or, Bool.or_true]

theorem numberInputValue_eq_empty (typed : String)
    (h : numberInputValue typed = "" ∨ isNumericText (numberInputValue typed) = false) :
    numberInputValue typed = "" := by
  rcases h with h | h
  · exact h
  · unfold numberInputValue at h ⊢
    by_cases hv : isValidFloatingPoint typed = true
    · rw [if_pos hv] at h
      rw [isNumericText_of_isValidFloatingPoint typed hv] at h
      cases h
    · rw [if_neg hv]

theorem filter_sublist_filter {α : Type} (p q : α → Bool) (l : List α)
    (h : ∀ x, p x = true → q x = true) : List.Sublist (l.filter p) (l.filter q) := by
  induction l with
  | nil => exact List.Sublist.refl _
  | cons x xs ih =>
    by_cases hp : p x = true
    · rw [List.filter_cons_of_pos hp, List.filter_cons_of_pos (h x hp)]
      exact ih.cons₂ x
    · rw [List.filter_cons_of_neg hp]
      by_cases hq : q x = true
      · rw [List.filter_cons_of_pos hq]
        exact ih.cons x
      · rw [List.filter_cons_of_neg hq]
        exact ih

theorem filterSteps_sublist_of_imp (table : LowerTable) (inventory : List Vehicle)
    (query : String) (f g : Filters)
    (h : ∀ v, survives table query f v = true → survives table query g v = true) :
    List.Sublist (filterSteps table inventory query f) (filterSteps table inventory query g) := by
  rw [filterSteps_eq_filter, filterSteps_eq_filter]
  exact filter_sublist_filter _ _ inventory h

/-- An empty bound keeps every listing that any text of the bound keeps. -/
theorem filterSteps_sublist_empty_bound (table : LowerTable) (inventory : List Vehicle)
    (query : String) (filters : Filters) (t : String) :
    List.Sublist (filterSteps table inventory query { filters with maxPrice := t })
      (filterSteps table inventory query { filters with maxPrice := "" }) ∧
    List.Sublist (filterSteps table inventory query { filters with maxMileage := t })
      (filterSteps table inventory query { filters with maxMileage := "" }) ∧
    List.Sublist (filterSteps table inventory query { filters with yearMin := t })
      (filterSteps table inventory query { filters with yearMin := "" }) ∧
    List.Sublist (filterSteps table inventory query { filters with yearMax := t })
      (filterSteps table inventory query { filters with yearMax := "" }) := by
  refine ⟨?_, ?_, ?_, ?_⟩ <;>
  · apply filterSteps_sublist_of_imp
    intro v hv
    simp only [survives, truthy_empty, Bool.not_false, Bool.true_or, Bool.and_true,
      Bool.and_eq_true] at hv ⊢
    tauto

/-- C5. A numeric bound whose text is empty or does not parse as a number imposes no
constraint.  The text of a bound is the value of its number control; when that value is empty
or is not a numeric text (which leaves the empty value only, every other value of the control
being a numeric text), the derived list is the one obtained with that bound field empty, and
the filter steps keep every listing that they keep under any other text of that bound. -/
theorem bound_no_constraint (table : LowerTable) (inventory : List Vehicle) (query : String)
    (filters : Filters) (sortBy typed : String)
    (h : numberInputValue typed = "" ∨ isNumericText (numberInputValue typed) = false) :
    (filtered table inventory query { filters with maxPrice := numberInputValue typed }
        sortBy = filtered table inventory query { filters with maxPrice := "" } sortBy ∧
      filtered table inventory query { filters with maxMileage := numberInputValue typed }
        sortBy = filtered table inventory query { filters with maxMileage := "" } sortBy ∧
      filtered table inventory query { filters with yearMin := numberInputValue typed }
        sortBy = filtered table inventory query { filters with yearMin := "" } sortBy ∧
      filtered table inventory query { filters with yearMax := numberInputValue typed }
        sortBy = filtered table inventory query { filters with yearMax := "" } sortBy) ∧
    ∀ t : String,
      List.Sublist (filterSteps table inventory query { filters with maxPrice := t })
        (filterSteps table inventory query
          { filters with maxPrice := numberInputValue typed }) ∧
      List.Sublist (filterSteps table inventory query { filters with maxMileage := t })
        (filterSteps table inventory query
          { filters with maxMileage := numberInputValue typed }) ∧
      List.Sublist (filterSteps table inventory query { filters with yearMin := t })
        (filterSteps table inventory query
          { filters with yearMin := numberInputValue typed }) ∧
      List.Sublist (filterSteps table inventory query { filters with yearMax := t })
        (filterSteps table inventory query
          { filters with yearMax := numberInputValue typed }) := by
  rw [numberInputValue_eq_empty typed h]
  exact ⟨⟨rfl, rfl, rfl, rfl⟩,
    fun t => filterSteps_sublist_empty_bound table inventory query filters t⟩

/-- C5, at the text `abc` typed into the minimum-year control, whose value is then empty, on
the example inventory of the specification. -/
theorem bound_no_constraint_witness :
    numberInputValue "abc" = "" ∧
    filtered sampleTable [listingA, listingB] ""
        { Filters.empty with yearMin := numberInputValue "abc" } "price-asc" =
      Except.ok [listingB, listingA] ∧
    List.Sublist
      (filterSteps sampleTable [listingA, listingB] "" { Filters.empty with yearMin := "2019" })
      (filterSteps sampleTable [listingA, listingB] ""
        { Filters.empty with yearMin := numberInputValue "abc" }) :=
  ⟨by decide,
    ((bound_no_constraint sampleTable [listingA, listingB] "" Filters.empty "price-asc" "abc"
      (Or.inl (by decide))).1.2.2.1).trans rfl,
    ((bound_no_constraint sampleTable [listingA, listingB] "" Filters.empty "price-asc" "abc"
      (Or.inl (by decide))).2 "2019").2.2.1⟩

/-! ## Moderation and deletion -/

/-- C7. A review is in `published` exactly when it is in the collection with its approved flag
set; no review whose flag is unset is in `published`, and every review of the collection whose
flag is unset is in `pending`. -/
theorem published_iff (reviews : List Review) (r : Review) :
    (r ∈ published reviews ↔ r ∈ reviews ∧ r.approved = true) ∧
    (r.approved = false → r ∉ published reviews) ∧
    (r ∈ reviews → r.approved = false → r ∈ pending reviews) := by
  refine ⟨?_, ?_, ?_⟩
  · simp [published, List.mem_filter]
  · intro h
    simp [published, List.mem_filter, h]
  · intro hr h
    simp [pending, List.mem_filter, hr, h]

/-- C7, at a collection of one published and one pending review. -/
theorem published_iff_witness :
    sampleReview "p" false ∉ published [sampleReview "q" true, sampleReview "p" false] ∧
    sampleReview "p" false ∈ pending [sampleReview "q" true, sampleReview "p" false] :=
  ⟨(published_iff [sampleReview "q" true, sampleReview "p" false]
      (sampleReview "p" false)).2.1 rfl,
    (published_iff [sampleReview "q" true, sampleReview "p" false]
      (sampleReview "p" false)).2.2 (by decide) rfl⟩

/-- C8. While admin, approving twice is approving once, and unapproving twice is unapproving
once. -/
theorem approve_idempotent (reviews : List Review) (id : String) :
    approve true id (approve true id reviews) = approve true id reviews ∧
    unapprove true id (unapprove true id reviews) = unapprove true id reviews := by
  constructor
  · simp only [approve, Bool.not_true, Bool.false_eq_true, if_false, List.map_map]
    apply List.map_congr_left
    intro r _
    by_cases h : r.id = id <;> simp [h]
  · simp only [unapprove, Bool.not_true, Bool.false_eq_true, if_false, List.map_map]
    apply List.map_congr_left
    intro r _
    by_cases h : r.id = id <;> simp [h]

theorem approve_getElem? (reviews : List Review) (id : String) (i : Nat) :
    (approve true id reviews)[i]? =
      (reviews[i]?).map (fun r => if r.id = id then { r with approved := true } else r) := by
  simp [approve]

theorem unapprove_getElem? (reviews : List Review) (id : String) (i : Nat) :
    (unapprove true id reviews)[i]? =
      (reviews[i]?).map (fun r => if r.id = id then { r with approved := false } else r) := by
  simp [unapprove]

/-- C9. While admin, unapproving after approving an id whose reviews are pending gives back the
collection; approving and unapproving keep the length of the collection, and at every position
they keep the id, name, rating, comment, response, creation time and source of the review, set
the approved flag of a review with the target id, and leave every other review as it is. -/
theorem approve_unapprove_reversible (reviews : List Review) (id : String) :
    ((∀ r ∈ reviews, r.id = id → r.approved = false) →
      unapprove true id (approve true id reviews) = reviews) ∧
    (approve true id reviews).length = reviews.length ∧
    (unapprove true id reviews).length = reviews.length ∧
    (∀ (i : Nat) (r : Review), reviews[i]? = some r →
      ∃ r2, (approve true id reviews)[i]? = some r2 ∧
        r2.id = r.id ∧ r2.name = r.name ∧ r2.rating = r.rating ∧ r2.comment = r.comment ∧
        r2.response = r.response ∧ r2.createdAt = r.createdAt ∧ r2.source = r.source ∧
        (r.id = id → r2.approved = true) ∧ (r.id ≠ id → r2 = r)) ∧
    (∀ (i : Nat) (r : Review), reviews[i]? = some r →
      ∃ r2, (unapprove true id reviews)[i]? = some r2 ∧
        r2.id = r.id ∧ r2.name = r.name ∧ r2.rating = r.rating ∧ r2.comment = r.comment ∧
        r2.response = r.response ∧ r2.createdAt = r.createdAt ∧ r2.source = r.source ∧
        (r.id = id → r2.approved = false) ∧ (r.id ≠ id → r2 = r)) := by
  refine ⟨?_, by simp [approve], by simp [unapprove], ?_, ?_⟩
  · intro hp
    simp only [approve, unapprove, Bool.not_true, Bool.false_eq_true, if_false, List.map_map]
    conv_rhs => rw [← List.map_id reviews]
    apply List.map_congr_left
    intro r hr
    by_cases h : r.id = id
    · have ha := hp r hr h
      cases r
      simp only at h ha
      simp [h, ha]
    · simp [h]
  · intro i r hr
    rw [approve_getElem?, hr]
    by_cases h : r.id = id <;> simp [h]
  · intro i r hr
    rw [unapprove_getElem?, hr]
    by_cases h : r.id = id <;> simp [h]

/-- C9, at a collection whose second review is the pending target. -/
theorem approve_unapprove_reversible_witness :
    unapprove true "p" (approve true "p" [sampleReview "q" true, sampleReview "p" false]) =
      [sampleReview "q" true, sampleReview "p" false] :=
  (approve_unapprove_reversible [sampleReview "q" true, sampleReview "p" false] "p").1
    (by decide)

/-- C10. Deleting by id, from the inventory (`onDelete`) and from the reviews (`del` while
admin), keeps exactly the records whose id differs from the target: no record with the target
id remains, every other record remains unchanged and as many times as before, and the result is
a sublist of the collection, so the order is kept. -/
theorem delete_by_id (inventory : List Vehicle) (target : Vehicle) (reviews : List Review)
    (id : String) :
    (onDelete target inventory = inventory.filter (fun x => decide (x.id ≠ target.id)) ∧
      (∀ x ∈ onDelete target inventory, x.id ≠ target.id) ∧
      (∀ x, x.id ≠ target.id → (onDelete target inventory).count x = inventory.count x) ∧
      List.Sublist (onDelete target inventory) inventory) ∧
    (del true id reviews = reviews.filter (fun r => decide (r.id ≠ id)) ∧
      (∀ r ∈ del true id reviews, r.id ≠ id) ∧
      (∀ r, r.id ≠ id → (del true id reviews).count r = reviews.count r) ∧
      List.Sublist (del true id reviews) reviews) := by
  refine ⟨⟨rfl, ?_, ?_, List.filter_sublist _⟩, ⟨rfl, ?_, ?_, ?_⟩⟩
  · intro x hx
    simpa using (List.mem_filter.1 hx).2
  · intro x hx
    rw [onDelete, List.count_filter]
    simpa using hx
  · intro r hr
    simp only [del, Bool.not_true, Bool.false_eq_true, if_false] at hr
    simpa using (List.mem_filter.1 hr).2
  · intro r hr
    simp only [del, Bool.not_true, Bool.false_eq_true, if_false]
    rw [List.count_filter]
    simpa using hr
  · simp only [del, Bool.not_true, Bool.false_eq_true, if_false]
    exact List.filter_sublist _

/-- C10, at the example inventory of the specification and a collection of two reviews. -/
theorem delete_by_id_witness :
    onDelete listingA [listingA, listingB] = [listingB] ∧
    (onDelete listingA [listingA, listingB]).count listingB = [listingA, listingB].count listingB ∧
    (del true "p" [sampleReview "q" true, sampleReview "p" false]).count (sampleReview "q" true) =
      [sampleReview "q" true, sampleReview "p" false].count (sampleReview "q" true) :=
  ⟨rfl,
    (delete_by_id [listingA, listingB] listingA [sampleReview "q" true, sampleReview "p" false]
      "p").1.2.2.1 listingB (by decide),
    (delete_by_id [listingA, listingB] listingA [sampleReview "q" true, sampleReview "p" false]
      "p").2.2.2.1 (sampleReview "q" true) (by decide)⟩

/-! ## Review submission -/

theorem addReview_of_empty (uid now : String) (form : ReviewForm) (prev : List Review)
    (h : form.name = "" ∨ form.comment = "") :
    addReview uid now form prev =
      { reviews := prev, form := form, alert := "Please add your name and a short comment." } := by
  have hc : (!truthy form.name || !truthy form.comment) = true := by
    rcases h with h | h <;> simp [h, truthy_empty]
  simp only [addReview, hc, if_true]

theorem addReview_of_filled (uid now : String) (form : ReviewForm) (prev : List Review)
    (hn : form.name ≠ "") (hc : form.comment ≠ "") :
    addReview uid now form prev =
      { reviews :=
          { id := uid, name := trim form.name,
            rating := jsOr (Number form.rating) (JSValue.number 5),
            comment := trim form.comment, createdAt := now, response := "", approved := false,
            source := "onsite" } :: prev,
        form := ReviewForm.initial,
        alert := "Thanks! Your review was submitted and is awaiting approval." } := by
  have h1 : truthy form.name = true := (truthy_iff _).2 hn
  have h2 : truthy form.comment = true := (truthy_iff _).2 hc
  simp [addReview, h1, h2]

/-- C11. When the name or the comment of the form is empty, `addReview` leaves the review
collection and the form as they are and shows the validation alert. -/
theorem addReview_rejects (uid now : String) (form : ReviewForm) (prev : List Review)
    (h : form.name = "" ∨ form.comment = "") :
    (addReview uid now form prev).reviews = prev ∧
    (addReview uid now form prev).form = form ∧
    (addReview uid now form prev).alert = "Please add your name and a short comment." := by
  rw [addReview_of_empty uid now form prev h]
  exact ⟨rfl, rfl, rfl⟩

/-- C11, at a form with a name and no comment, on a collection of one review. -/
theorem addReview_rejects_witness :
    (addReview "u1" "2024-05-01T10:00:00.000Z" ⟨"Jane", FormValue.text "4", ""⟩
      [sampleReview "p" false]).reviews = [sampleReview "p" false] ∧
    (addReview "u1" "2024-05-01T10:00:00.000Z" ⟨"Jane", FormValue.text "4", ""⟩
      [sampleReview "p" false]).form = ⟨"Jane", FormValue.text "4", ""⟩ ∧
    (addReview "u1" "2024-05-01T10:00:00.000Z" ⟨"Jane", FormValue.text "4", ""⟩
      [sampleReview "p" false]).alert = "Please add your name and a short comment." :=
  addReview_rejects "u1" "2024-05-01T10:00:00.000Z" ⟨"Jane", FormValue.text "4", ""⟩
    [sampleReview "p" false] (Or.inr rfl)

/-- C12. For a form that `addReview` accepts (name and comment not empty), the new collection
is the old one with one new review in front; the new review has `approved = false` and
`response = ""`, carries the trimmed name and comment of the form, is in `pending` and not in
`published`, and the reviews stored before follow unchanged. -/
theorem addReview_accepts (uid now : String) (form : ReviewForm) (prev : List Review)
    (hn : form.name ≠ "") (hc : form.comment ≠ "") :
    ∃ r : Review,
      (addReview uid now form prev).reviews = r :: prev ∧
      r.approved = false ∧ r.response = "" ∧
      r.name = trim form.name ∧ r.comment = trim form.comment ∧
      r ∈ pending (addReview uid now form prev).reviews ∧
      r ∉ published (addReview uid now form prev).reviews := by
  rw [addReview_of_filled uid now form prev hn hc]
  refine ⟨_, rfl, rfl, rfl, rfl, rfl, ?_, ?_⟩
  · simp [pending]
  · simp [published]

/-- C12, at the example of the specification: name `Jane`, comment `Great service`. -/
theorem addReview_accepts_witness :
    ∃ r : Review,
      (addReview "u1" "2024-05-01T10:00:00.000Z" sampleForm [sampleReview "q" true]).reviews =
        r :: [sampleReview "q" true] ∧
      r.approved = false ∧ r.response = "" ∧
      r.name = trim sampleForm.name ∧ r.comment = trim sampleForm.comment ∧
      r ∈ pending
        (addReview "u1" "2024-05-01T10:00:00.000Z" sampleForm [sampleReview "q" true]).reviews ∧
      r ∉ published
        (addReview "u1" "2024-05-01T10:00:00.000Z" sampleForm [sampleReview "q" true]).reviews :=
  addReview_accepts "u1" "2024-05-01T10:00:00.000Z" sampleForm [sampleReview "q" true]
    (by decide) (by decide)

/-- The rating stored by an accepted submission is the React element returned by the module's
`Number`, whatever the rating of the form. -/
theorem addReview_rating (uid now : String) (form : ReviewForm) (prev : List Review)
    (hn : form.name ≠ "") (hc : form.comment ≠ "") :
    (addReview uid now form prev).reviews.map Review.rating =
      JSValue.element "label" :: prev.map Review.rating := by
  rw [addReview_of_filled uid now form prev hn hc]
  rfl

/-- C13. On the form of the example of the specification (rating `5`), the rating that
`addReview` stores is the React element returned by the module's `Number`, not the number `5`
and no number at all. -/
theorem addReview_rating_sample :
    (addReview "u1" "2024-05-01T10:00:00.000Z" sampleForm []).reviews.map Review.rating =
      [JSValue.element "label"] ∧
    ∀ n : Int,
      (addReview "u1" "2024-05-01T10:00:00.000Z" sampleForm []).reviews.map Review.rating ≠
        [JSValue.number n] := by
  refine ⟨rfl, ?_⟩
  intro n h
  have h2 : (addReview "u1" "2024-05-01T10:00:00.000Z" sampleForm []).reviews.map Review.rating =
      [JSValue.element "label"] := rfl
  rw [h2] at h
  cases h

/-- C14. When `isAdmin` is false, `approve`, `unapprove`, `del` and `saveResponse` leave the
review collection as it is. -/
theorem moderation_refused (reviews : List Review) (id text : String) :
    approve false id reviews = reviews ∧
    unapprove false id reviews = reviews ∧
    del false id reviews = reviews ∧
    saveResponse false id text reviews = reviews :=
  ⟨rfl, rfl, rfl, rfl⟩

/-- C17. On a form whose name is white space only, `addReview` accepts the submission and stores
a review whose name is empty. -/
theorem addReview_blank_name :
    (addReview "u1" "2024-05-01T10:00:00.000Z" ⟨"   ", FormValue.number 5, "ok"⟩ []).reviews.map
        Review.name = [""] ∧
    (addReview "u1" "2024-05-01T10:00:00.000Z" ⟨"ok", FormValue.number 5, " \n"⟩ []).reviews.map
        Review.comment = [""] :=
  ⟨rfl, rfl⟩

theorem saveResponse_getElem? (reviews : List Review) (id text : String) (i : Nat) :
    (saveResponse true id text reviews)[i]? =
      (reviews[i]?).map (fun r => if r.id = id then { r with response := text } else r) := by
  simp [saveResponse]

/-- C18. While admin, `saveResponse` keeps the length of the collection, and at every position
it keeps the id, name, rating, comment, creation time, source and approved flag of the review,
sets the response of a review with the target id to the text, and leaves every other review as
it is. -/
theorem saveResponse_frame (reviews : List Review) (id text : String) :
    (saveResponse true id text reviews).length = reviews.length ∧
    ∀ (i : Nat) (r : Review), reviews[i]? = some r →
      ∃ r2, (saveResponse true id text reviews)[i]? = some r2 ∧
        r2.id = r.id ∧ r2.name = r.name ∧ r2.rating = r.rating ∧ r2.comment = r.comment ∧
        r2.createdAt = r.createdAt ∧ r2.source = r.source ∧ r2.approved = r.approved ∧
        (r.id = id → r2.response = text) ∧ (r.id ≠ id → r2 = r) := by
  refine ⟨by simp [saveResponse], ?_⟩
  intro i r hr
  rw [saveResponse_getElem?, hr]
  by_cases h : r.id = id <;> simp [h]

/-- C18, at a collection whose first review is published and is the target. -/
theorem saveResponse_frame_witness :
    ∃ r2, (saveResponse true "q" "Thank you" [sampleReview "q" true, sampleReview "p" false])[0]? =
        some r2 ∧
      r2.id = (sampleReview "q" true).id ∧ r2.name = (sampleReview "q" true).name ∧
      r2.rating = (sampleReview "q" true).rating ∧
      r2.comment = (sampleReview "q" true).comment ∧
      r2.createdAt = (sampleReview "q" true).createdAt ∧
      r2.source = (sampleReview "q" true).source ∧
      r2.approved = (sampleReview "q" true).approved ∧
      ((sampleReview "q" true).id = "q" → r2.response = "Thank you") ∧
      ((sampleReview "q" true).id ≠ "q" → r2 = sampleReview "q" true) :=
  (saveResponse_frame [sampleReview "q" true, sampleReview "p" false] "q" "Thank you").2 0
    (sampleReview "q" true) rfl


/-! ## Persistent store -/

theorem readAll_map {α : Type} (f : Json → Option α) (g : α → Json) (k : α → α) (l : List α)
    (h : ∀ x ∈ l, f (g x) = some (k x)) : readAll f (l.map g) = some (l.map k) := by
  induction l with
  | nil => rfl
  | cons x xs ih =>
    have hx : f (g x) = some (k x) := h x (List.mem_cons_self x xs)
    have hxs : readAll f (xs.map g) = some (xs.map k) :=
      ih (fun y hy => h y (List.mem_cons_of_mem x hy))
    simp only [List.map_cons, readAll, hx, hxs]

theorem asStrings_map_str (images : List String) :
    Json.asStrings (Json.arr (images.map Json.str)) = some images := by
  have h := readAll_map Json.asString Json.str id images (fun _ _ => rfl)
  simpa using h

theorem asValue_valueJson_number (ej : ElementJson) (n : Int) :
    asValue (valueJson ej (JSValue.number n)) = some (JSValue.number n) := rfl

theorem asValue_valueJson_element (ej : ElementJson) (tag : String) :
    asValue (valueJson ej (JSValue.element tag)) = some (JSValue.object tag) := by
  simp [asValue, valueJson, List.lookup, Json.asString]

theorem asValue_valueJson_object (ej : ElementJson) (tag : String) :
    asValue (valueJson ej (JSValue.object tag)) = some (JSValue.object tag) := by
  simp [asValue, valueJson, List.lookup, Json.asString]

theorem asReview_reviewJson (ej : ElementJson) (r : Review) (n : Int)
    (h : r.rating = JSValue.number n) : asReview (reviewJson ej r) = some r := by
  cases r
  simp only at h
  subst h
  rfl

theorem asVehicle_vehicleJson (ej : ElementJson) (v : Vehicle) (hn : v.isNumeric = true) :
    asVehicle (vehicleJson ej v) = some v := by
  obtain ⟨hy, hp, hm⟩ := isNumeric_fields v hn
  obtain ⟨y, hy2⟩ := (isNumber_iff _).1 hy
  obtain ⟨p, hp2⟩ := (isNumber_iff _).1 hp
  obtain ⟨m, hm2⟩ := (isNumber_iff _).1 hm
  cases v with
  | mk id title make model year price mileage body fuel transmission location color vin
      description images createdAt =>
    simp only at hy2 hp2 hm2
    subst hy2 hp2 hm2
    have hf : (Json.field "images" (vehicleJson ej ⟨id, title, make, model, JSValue.number y,
        JSValue.number p, JSValue.number m, body, fuel, transmission, location, color, vin,
        description, images, createdAt⟩)).bind Json.asStrings = some images :=
      asStrings_map_str images
    unfold asVehicle
    rw [hf]
    rfl

theorem loadKey_of_readFails (key : String) (st : Storage) (h : st.readFails = true) :
    loadKey key st = Except.ok (Json.arr []) := by
  simp [loadKey, getItem, h]

theorem loadKey_of_absent (key : String) (st : Storage) (h : st.items key = none) :
    loadKey key st = Except.ok (Json.arr []) := by
  cases hr : st.readFails <;> simp [loadKey, getItem, hr, h]

theorem loadKey_of_empty (key : String) (st : Storage)
    (h : st.items key = some StoredText.empty) :
    loadKey key st = Except.ok (Json.arr []) := by
  cases hr : st.readFails <;> simp [loadKey, getItem, hr, h, rawTruthy]

theorem loadKey_of_malformed (key : String) (st : Storage)
    (h : st.items key = some StoredText.malformed) :
    loadKey key st = Except.ok (Json.arr []) := by
  cases hr : st.readFails <;> simp [loadKey, getItem, hr, h, rawTruthy, jsonParse]

theorem loadKey_of_json (key : String) (st : Storage) (v : Json) (hr : st.readFails = false)
    (h : st.items key = some (StoredText.json v)) :
    loadKey key st = Except.ok v := by
  simp [loadKey, getItem, hr, h, rawTruthy, jsonParse]

theorem loadKey_total (key : String) (st : Storage) : ∃ j, loadKey key st = Except.ok j := by
  cases hr : st.readFails
  · cases hi : st.items key with
    | none => exact ⟨_, loadKey_of_absent key st hi⟩
    | some raw =>
      cases raw with
      | empty => exact ⟨_, loadKey_of_empty key st hi⟩
      | json v => exact ⟨_, loadKey_of_json key st v hr hi⟩
      | malformed => exact ⟨_, loadKey_of_malformed key st hi⟩
  · exact ⟨_, loadKey_of_readFails key st hr⟩

theorem loadInventory_saveInventory (ej : ElementJson) (st : Storage) (c : List Vehicle)
    (hr : st.readFails = false) (hw : st.writeFails = false) :
    loadInventory (saveInventory ej st c) = Except.ok (Json.arr (c.map (vehicleJson ej))) := by
  have hs : saveInventory ej st c =
      { st with items := fun k => if k = LS_KEY then some (stringifyInventory ej c)
                                  else st.items k } := by
    simp [saveInventory, setItem, hw]
  rw [hs]
  exact loadKey_of_json LS_KEY _ _ hr (by simp [stringifyInventory])

theorem loadReviews_saveReviews (ej : ElementJson) (st : Storage) (c : List Review)
    (hr : st.readFails = false) (hw : st.writeFails = false) :
    loadReviews (saveReviews ej st c) = Except.ok (Json.arr (c.map (reviewJson ej))) := by
  have hs : saveReviews ej st c =
      { st with items := fun k => if k = LS_REVIEWS then some (stringifyReviews ej c)
                                  else st.items k } := by
    simp [saveReviews, setItem, hw]
  rw [hs]
  exact loadKey_of_json LS_REVIEWS _ _ hr (by simp [stringifyReviews])

/-- On a working store, loading after saving returns the saved collection, with the same
records in the same order and the same field values, for every inventory whose years, prices
and mileages are numbers and for every review collection whose ratings are numbers; the empty
collection is included. -/
theorem store_roundtrip (ej : ElementJson) (st : Storage) (hr : st.readFails = false)
    (hw : st.writeFails = false) :
    (∀ c : List Vehicle, (∀ v ∈ c, v.isNumeric = true) →
      ∃ j, loadInventory (saveInventory ej st c) = Except.ok j ∧ asInventory j = some c) ∧
    (∀ c : List Review, (∀ r ∈ c, ∃ n : Int, r.rating = JSValue.number n) →
      ∃ j, loadReviews (saveReviews ej st c) = Except.ok j ∧ asReviews j = some c) := by
  refine ⟨?_, ?_⟩
  · intro c hc
    refine ⟨_, loadInventory_saveInventory ej st c hr hw, ?_⟩
    have h := readAll_map asVehicle (vehicleJson ej) id c
      (fun v hv => asVehicle_vehicleJson ej v (hc v hv))
    simpa [asInventory] using h
  · intro c hc
    refine ⟨_, loadReviews_saveReviews ej st c hr hw, ?_⟩
    have h := readAll_map asReview (reviewJson ej) id c (fun r hmem => by
      obtain ⟨n, hn⟩ := hc r hmem
      exact asReview_reviewJson ej r n hn)
    simpa [asReviews] using h

/-- C15. The collections that the code itself stores do not survive the round trip.  On a
working store, the review submitted with the example form is loaded back with a plain object
as its rating in place of the React element that was saved, and the listing added through the
add-vehicle form is loaded back with plain objects as its year, price and mileage: in both
cases the loaded collection is not the saved one. -/
theorem store_roundtrip_element (ej : ElementJson) :
    (addReview "u1" "2024-05-01T10:00:00.000Z" sampleForm []).reviews = [submittedReview] ∧
    (∃ j, loadReviews (saveReviews ej ⟨false, false, fun _ => none⟩ [submittedReview]) =
        Except.ok j ∧
      asReviews j = some [reloadedReview submittedReview]) ∧
    [reloadedReview submittedReview] ≠ [submittedReview] ∧
    (∃ j, loadInventory (saveInventory ej ⟨false, false, fun _ => none⟩ addedInventory) =
        Except.ok j ∧
      asInventory j = some (addedInventory.map reloadedListing)) ∧
    addedInventory.map reloadedListing ≠ addedInventory := by
  refine ⟨rfl, ⟨_, loadReviews_saveReviews ej _ _ rfl rfl, ?_⟩, by decide,
    ⟨_, loadInventory_saveInventory ej _ _ rfl rfl, ?_⟩, by decide⟩
  · rfl
  · rfl

theorem asReview_reviewJson_reloaded (ej : ElementJson) (r : Review)
    (h : r.rating ≠ JSValue.nan) : asReview (reviewJson ej r) = some (reloadedReview r) := by
  cases r with
  | mk id name rating comment createdAt response approved source =>
    cases rating with
    | number n => rfl
    | nan => exact absurd rfl h
    | element tag => rfl
    | object tag => rfl

/-- On a working store, loading after saving a review collection without `NaN` ratings returns
the collection in which every rating that was a React element is a plain object. -/
theorem loadReviews_saveReviews_reloaded (ej : ElementJson) (st : Storage) (c : List Review)
    (hr : st.readFails = false) (hw : st.writeFails = false)
    (hc : ∀ r ∈ c, r.rating ≠ JSValue.nan) :
    ∃ j, loadReviews (saveReviews ej st c) = Except.ok j ∧
      asReviews j = some (c.map reloadedReview) :=
  ⟨_, loadReviews_saveReviews ej st c hr hw,
    readAll_map asReview (reviewJson ej) reloadedReview c
      (fun r hmem => asReview_reviewJson_reloaded ej r (hc r hmem))⟩

/-- C16, as stated, fails: when the text kept under the inventory key is the JSON text `42`,
`loadInventory` returns the number `42`, which is not a sequence of records and is not the
empty sequence; likewise `loadReviews` returns `null` for the text `null`. -/
theorem load_not_sequence_counterexample :
    loadInventory ⟨false, false,
        fun k => if k = LS_KEY then some (StoredText.json (Json.num 42)) else none⟩ =
      Except.ok (Json.num 42) ∧
    isRecordSequence (Json.num 42) = false ∧
    loadInventory ⟨false, false,
        fun k => if k = LS_KEY then some (StoredText.json (Json.num 42)) else none⟩ ≠
      Except.ok (Json.arr []) ∧
    loadReviews ⟨false, false,
        fun k => if k = LS_REVIEWS then some (StoredText.json Json.null) else none⟩ =
      Except.ok Json.null ∧
    isRecordSequence Json.null = false := by
  refine ⟨rfl, rfl, ?_, rfl, rfl⟩
  intro h
  have h2 : loadInventory ⟨false, false,
      fun k => if k = LS_KEY then some (StoredText.json (Json.num 42)) else none⟩ =
      Except.ok (Json.num 42) := rfl
  rw [h2] at h
  cases h

/-- C16, amended. `loadInventory` and `loadReviews` never raise.  They return the collection
saved before when one is stored, and the empty sequence when the key is absent, when the stored
text is empty or is not a JSON text, or when reading the storage fails; a stored JSON text is
returned as the value it denotes, whatever that value is. -/
theorem load_total (st : Storage) :
    ((∃ j, loadInventory st = Except.ok j) ∧
      (st.readFails = false → st.writeFails = false → ∀ (ej : ElementJson) (c : List Vehicle),
        loadInventory (saveInventory ej st c) =
          Except.ok (Json.arr (c.map (vehicleJson ej)))) ∧
      (st.items LS_KEY = none → loadInventory st = Except.ok (Json.arr [])) ∧
      (st.items LS_KEY = some StoredText.empty → loadInventory st = Except.ok (Json.arr [])) ∧
      (st.items LS_KEY = some StoredText.malformed →
        loadInventory st = Except.ok (Json.arr [])) ∧
      (st.readFails = true → loadInventory st = Except.ok (Json.arr [])) ∧
      (∀ v, st.readFails = false → st.items LS_KEY = some (StoredText.json v) →
        loadInventory st = Except.ok v)) ∧
    ((∃ j, loadReviews st = Except.ok j) ∧
      (st.readFails = false → st.writeFails = false → ∀ (ej : ElementJson) (c : List Review),
        loadReviews (saveReviews ej st c) =
          Except.ok (Json.arr (c.map (reviewJson ej)))) ∧
      (st.items LS_REVIEWS = none → loadReviews st = Except.ok (Json.arr [])) ∧
      (st.items LS_REVIEWS = some StoredText.empty →
        loadReviews st = Except.ok (Json.arr [])) ∧
      (st.items LS_REVIEWS = some StoredText.malformed →
        loadReviews st = Except.ok (Json.arr [])) ∧
      (st.readFails = true → loadReviews st = Except.ok (Json.arr [])) ∧
      (∀ v, st.readFails = false → st.items LS_REVIEWS = some (StoredText.json v) →
        loadReviews st = Except.ok v)) :=
  ⟨⟨loadKey_total LS_KEY st,
      fun hr hw ej c => loadInventory_saveInventory ej st c hr hw,
      loadKey_of_absent LS_KEY st, loadKey_of_empty LS_KEY st, loadKey_of_malformed LS_KEY st,
      loadKey_of_readFails LS_KEY st, fun v hr h => loadKey_of_json LS_KEY st v hr h⟩,
    ⟨loadKey_total LS_REVIEWS st,
      fun hr hw ej c => loadReviews_saveReviews ej st c hr hw,
      loadKey_of_absent LS_REVIEWS st, loadKey_of_empty LS_REVIEWS st,
      loadKey_of_malformed LS_REVIEWS st, loadKey_of_readFails LS_REVIEWS st,
      fun v hr h => loadKey_of_json LS_REVIEWS st v hr h⟩⟩

/-- C16 amended, on a store whose reads fail and on a store that keeps a malformed text under
the review key. -/
theorem load_total_witness :
    loadInventory ⟨true, false, fun _ => some StoredText.malformed⟩ = Except.ok (Json.arr []) ∧
    loadReviews ⟨false, false,
        fun k => if k = LS_REVIEWS then some StoredText.malformed else none⟩ =
      Except.ok (Json.arr []) :=
  ⟨(load_total ⟨true, false, fun _ => some StoredText.malformed⟩).1.2.2.2.2.2.1 rfl,
    (load_total ⟨false, false,
      fun k => if k = LS_REVIEWS then some StoredText.malformed else none⟩).2.2.2.2.2.1 rfl⟩


/-! ## Uniqueness of ids -/

theorem map_id_approve (isAdmin : Bool) (id : String) (reviews : List Review) :
    (approve isAdmin id reviews).map Review.id = reviews.map Review.id := by
  cases isAdmin
  · rfl
  · simp only [approve, Bool.not_true, Bool.false_eq_true, if_false, List.map_map]
    apply List.map_congr_left
    intro r _
    by_cases h : r.id = id <;> simp [h]

theorem map_id_unapprove (isAdmin : Bool) (id : String) (reviews : List Review) :
    (unapprove isAdmin id reviews).map Review.id = reviews.map Review.id := by
  cases isAdmin
  · rfl
  · simp only [unapprove, Bool.not_true, Bool.false_eq_true, if_false, List.map_map]
    apply List.map_congr_left
    intro r _
    by_cases h : r.id = id <;> simp [h]

theorem map_id_saveResponse (isAdmin : Bool) (id text : String) (reviews : List Review) :
    (saveResponse isAdmin id text reviews).map Review.id = reviews.map Review.id := by
  cases isAdmin
  · rfl
  · simp only [saveResponse, Bool.not_true, Bool.false_eq_true, if_false, List.map_map]
    apply List.map_congr_left
    intro r _
    by_cases h : r.id = id <;> simp [h]

theorem del_sublist (isAdmin : Bool) (id : String) (reviews : List Review) :
    List.Sublist (del isAdmin id reviews) reviews := by
  cases isAdmin
  · exact List.Sublist.refl _
  · exact List.filter_sublist _

/-- C19. When the ids of a collection are pairwise distinct they stay so after `approve`,
`unapprove`, `saveResponse` and `del` on the reviews (admin or not) and after `onDelete` on the
inventory, and after `addReview` and `onAdd` whenever the generated id does not occur in the
collection. -/
theorem ids_nodup_preserved (reviews : List Review) (inventory : List Vehicle)
    (isAdmin : Bool) (id text uid now : String) (form : ReviewForm) (target veh : Vehicle)
    (created : Int) :
    ((reviews.map Review.id).Nodup →
      ((approve isAdmin id reviews).map Review.id).Nodup ∧
      ((unapprove isAdmin id reviews).map Review.id).Nodup ∧
      ((saveResponse isAdmin id text reviews).map Review.id).Nodup ∧
      ((del isAdmin id reviews).map Review.id).Nodup ∧
      (uid ∉ reviews.map Review.id →
        ((addReview uid now form reviews).reviews.map Review.id).Nodup)) ∧
    ((inventory.map Vehicle.id).Nodup →
      ((onDelete target inventory).map Vehicle.id).Nodup ∧
      (uid ∉ inventory.map Vehicle.id →
        ((onAdd uid created veh inventory).map Vehicle.id).Nodup)) := by
  constructor
  · intro h
    refine ⟨?_, ?_, ?_, ?_, ?_⟩
    · rw [map_id_approve]
      exact h
    · rw [map_id_unapprove]
      exact h
    · rw [map_id_saveResponse]
      exact h
    · exact List.Nodup.sublist ((del_sublist isAdmin id reviews).map Review.id) h
    · intro hu
      by_cases hf : form.name = "" ∨ form.comment = ""
      · rw [addReview_of_empty uid now form reviews hf]
        exact h
      · have hn : form.name ≠ "" := fun e => hf (Or.inl e)
        have hc : form.comment ≠ "" := fun e => hf (Or.inr e)
        rw [addReview_of_filled uid now form reviews hn hc]
        exact List.nodup_cons.2 ⟨hu, h⟩
  · intro h
    refine ⟨?_, ?_⟩
    · exact List.Nodup.sublist ((List.filter_sublist inventory).map Vehicle.id) h
    · intro hu
      exact List.nodup_cons.2 ⟨hu, h⟩

/-- C19, at a collection of two reviews and the example inventory of the specification, with
fresh ids `u1` and `u2`. -/
theorem ids_nodup_preserved_witness :
    ((del true "p" [sampleReview "q" true, sampleReview "p" false]).map Review.id).Nodup ∧
    ((addReview "u1" "2024-05-01T10:00:00.000Z" sampleForm
      [sampleReview "q" true, sampleReview "p" false]).reviews.map Review.id).Nodup ∧
    ((onAdd "u2" 3 listingA [listingA, listingB]).map Vehicle.id).Nodup :=
  ⟨((ids_nodup_preserved [sampleReview "q" true, sampleReview "p" false] [listingA, listingB]
      true "p" "" "u1" "2024-05-01T10:00:00.000Z" sampleForm listingA listingA 3).1
      (by decide)).2.2.2.1,
    ((ids_nodup_preserved [sampleReview "q" true, sampleReview "p" false] [listingA, listingB]
      true "p" "" "u1" "2024-05-01T10:00:00.000Z" sampleForm listingA listingA 3).1
      (by decide)).2.2.2.2 (by decide),
    ((ids_nodup_preserved [sampleReview "q" true, sampleReview "p" false] [listingA, listingB]
      true "p" "" "u2" "2024-05-01T10:00:00.000Z" sampleForm listingA listingA 3).2
      (by decide)).2 (by decide)⟩


end CarSales
